import Mathlib

set_option linter.unusedVariables false

/-! Shallow embedding of the SecureMe host-inventory collectors
    (src/utils of the repository).  Python strings are modelled as lists of
    characters, Python dictionaries as insertion-ordered association lists
    with in-place value replacement, subprocess invocations as abstract
    outcomes supplied by an environment, and Python exceptions as an
    explicit Except monad.  Every definition follows the corresponding
    Python function line by line. -/

abbrev Str := List Char

def strOf (s : String) : Str := s.data

/-- Python str.isspace for the ASCII whitespace that str.split and
    str.strip treat as separators. -/
def isSpaceCh (c : Char) : Bool := c = ' ' || c = '\t' || c = '\n' || c = '\r' || c = '\x0b' || c = '\x0c'

def isDigitCh (c : Char) : Bool := 48 ≤ c.toNat && c.toNat ≤ 57

def digitVal (c : Char) : Nat := c.toNat - 48

/-- Python str.split() with no separator: split on whitespace runs,
    discarding empty tokens. -/
def splitWsGo : Str → Str → List Str
  | [], acc => if acc = [] then [] else [acc.reverse]
  | c :: rest, acc =>
    if isSpaceCh c then
      (if acc = [] then splitWsGo rest [] else acc.reverse :: splitWsGo rest [])
    else splitWsGo rest (c :: acc)

def pySplitWs (s : Str) : List Str := splitWsGo s []

/-- Python str.split(sep) for a one-character separator: split at every
    occurrence, keeping empty chunks. -/
def splitAllGo (c : Char) : Str → Str → List Str
  | [], acc => [acc.reverse]
  | x :: rest, acc =>
    if x = c then acc.reverse :: splitAllGo c rest []
    else splitAllGo c rest (x :: acc)

def pySplitAll (c : Char) (s : Str) : List Str := splitAllGo c s []

def strStartsWith : Str → Str → Bool
  | _, [] => true
  | [], _ :: _ => false
  | c :: s, p :: ps => c = p && strStartsWith s ps

/-- Index of the first occurrence of pat in s, if any. -/
def findSubGo (pat : Str) : Str → Nat → Option Nat
  | [], i => if pat = [] then some i else none
  | c :: rest, i =>
    if strStartsWith (c :: rest) pat then some i else findSubGo pat rest (i + 1)

def findSub (pat s : Str) : Option Nat := findSubGo pat s 0

/-- Python membership test pat in s. -/
def containsSub (s pat : Str) : Bool := (findSub pat s).isSome

/-- Python str.split(sep, 1) for a one-character separator. -/
def pySplitOnce (c : Char) (s : Str) : List Str :=
  match findSub [c] s with
  | some i => [s.take i, s.drop (i + 1)]
  | none => [s]

/-- Index of the last occurrence of character c in s, if any. -/
def lastIdxGo (c : Char) : Str → Nat → Option Nat → Option Nat
  | [], _, best => best
  | x :: rest, i, best =>
    lastIdxGo c rest (i + 1) (if x = c then some i else best)

def lastIdxOfCh (c : Char) (s : Str) : Option Nat := lastIdxGo c s 0 none

/-- Python str.rsplit(sep, 1) for a one-character separator, as the pair
    (before, after); none when sep does not occur. -/
def pyRSplitOnce (c : Char) (s : Str) : Option (Str × Str) :=
  match lastIdxOfCh c s with
  | some i => some (s.take i, s.drop (i + 1))
  | none => none

/-- Python str.split(sep, 1) for a multi-character separator, as the pair
    (before, after); none when sep does not occur. -/
def splitSubOnce (sep s : Str) : Option (Str × Str) :=
  match findSub sep s with
  | some i => some (s.take i, s.drop (i + sep.length))
  | none => none

def pyStrip (s : Str) : Str :=
  ((s.dropWhile isSpaceCh).reverse.dropWhile isSpaceCh).reverse

def toLowerStr (s : Str) : Str := s.map Char.toLower

/-- Python str.replace(old, new) where new is the empty string and old a
    single character (the only form the repository uses). -/
def pyRemoveCh (c : Char) (s : Str) : Str := s.filter (fun x => x ≠ c)

def pyJoin (sep : Str) : List Str → Str
  | [] => []
  | [x] => x
  | x :: rest => x ++ sep ++ pyJoin sep rest

def natToStr (n : Nat) : Str := Nat.toDigits 10 n

def intToStr : Int → Str
  | .ofNat n => natToStr n
  | .negSucc n => '-' :: natToStr (n + 1)

def digitsVal : Str → Option Nat
  | [] => none
  | s =>
    if s.all isDigitCh then some (s.foldl (fun acc c => acc * 10 + digitVal c) 0)
    else none

/-- Python int(s): optional surrounding whitespace, optional sign, then a
    nonempty digit string; anything else raises ValueError (here none). -/
def pyInt (s : Str) : Option Int :=
  match pyStrip s with
  | '-' :: rest => (digitsVal rest).map (fun n => -(n : Int))
  | '+' :: rest => (digitsVal rest).map (fun n => (n : Int))
  | t => (digitsVal t).map (fun n => (n : Int))

/-! Python dictionaries: insertion-ordered association lists.  dset is the
    semantics of d[k] = v (replace in place, else append); dupdate is
    d.update(e). -/

abbrev PyDict (α : Type) := List (Str × α)

def dget {α : Type} : PyDict α → Str → Option α
  | [], _ => none
  | (k, v) :: d, q => if k = q then some v else dget d q

def dmem {α : Type} (k : Str) (d : PyDict α) : Bool := (dget d k).isSome

def dset {α : Type} : PyDict α → Str → α → PyDict α
  | [], k, v => [(k, v)]
  | (k0, v0) :: d, k, v =>
    if k0 = k then (k0, v) :: d else (k0, v0) :: dset d k v

def dupdate {α : Type} (d e : PyDict α) : PyDict α :=
  e.foldl (fun a kv => dset a kv.1 kv.2) d

def dlen {α : Type} (d : PyDict α) : Nat := d.length

def dkeys {α : Type} (d : PyDict α) : List Str := d.map Prod.fst

def nodupKeysB {α : Type} : PyDict α → Bool
  | [] => true
  | (k, _) :: d => (dget d k).isNone && nodupKeysB d

/-! Subprocess invocations and Python exceptions. -/

inductive PyExn where
  | fileNotFound
  | timeoutExpired
  | unicodeDecodeError
  | jsonDecodeError
  | attributeError
  | keyError
  | osError (msg : Str)
  | otherError
  deriving DecidableEq

/-- Rendering used when a caught exception is interpolated into a printed
    diagnostic; the exact Python text of str(e) is abstracted to the
    exception class name. -/
def exnStr : PyExn → Str
  | .fileNotFound => strOf "FileNotFoundError"
  | .timeoutExpired => strOf "TimeoutExpired"
  | .unicodeDecodeError => strOf "UnicodeDecodeError"
  | .jsonDecodeError => strOf "JSONDecodeError"
  | .attributeError => strOf "AttributeError"
  | .keyError => strOf "KeyError"
  | .osError m => m
  | .otherError => strOf "Exception"

/-- Outcome of one external tool invocation, supplied by the environment:
    the process ran and returned (any exit status, any captured stdout), the
    executable was missing, the timeout expired, or stdout failed to
    decode. -/
inductive ProbeOutcome where
  | ran (rc : Int) (stdout : Str)
  | toolAbsent
  | timedOut
  | decodeFailed

/-- subprocess.run(cmd, capture_output=True, text=True, timeout=t): returns
    the completed process or raises. -/
def subprocessRun : ProbeOutcome → Except PyExn (Int × Str)
  | .ran rc out => .ok (rc, out)
  | .toolAbsent => .error .fileNotFound
  | .timedOut => .error .timeoutExpired
  | .decodeFailed => .error .unicodeDecodeError

/-- True exactly when the probe ran and exited with status 0 (the success
    test every collector applies). -/
def isSuccessB : ProbeOutcome → Bool
  | .ran rc _ => rc = 0
  | _ => false

/-! JSON values, as returned by json.loads.  The loads function itself is
    an external library and is passed to the collectors as an oracle
    Str → Except PyExn JVal, quantified over in every theorem. -/

inductive JVal where
  | null
  | bool (b : Bool)
  | num (n : Int)
  | str (s : Str)
  | arr (xs : List JVal)
  | obj (kvs : List (Str × JVal))

/-- Python dict.get(k, default) on a parsed JSON object. -/
def jget (kvs : List (Str × JVal)) (k : Str) (dflt : JVal) : JVal :=
  match dget kvs k with
  | some v => v
  | none => dflt

def jTruthy : JVal → Bool
  | .null => false
  | .bool b => b
  | .num n => n ≠ 0
  | .str s => !s.isEmpty
  | .arr xs => !xs.isEmpty
  | .obj kvs => !kvs.isEmpty

/-- isinstance(v, str) combined with extraction. -/
def jStrOpt : JVal → Option Str
  | .str s => some s
  | _ => none

/-- Interpolation of a JSON value into an f-string.  The repository only
    ever interpolates scalar values (port numbers, names); the composite
    cases are rendered in an abbreviated bracket form. -/
def jFmt : JVal → Str
  | .null => strOf "None"
  | .bool true => strOf "True"
  | .bool false => strOf "False"
  | .num n => intToStr n
  | .str s => s
  | .arr _ => strOf "[...]"
  | .obj _ => strOf "\x7b...\x7d"

def linesOfStripped (out : Str) : List Str := pySplitAll '\n' (pyStrip out)

def linesOfRaw (out : Str) : List Str := pySplitAll '\n' out

/-! Shared pip probe: get_python_packages is defined identically in
    software_reader_linux.py, software_reader_macos.py and
    software_reader_windows.py. -/

def pipLine (d : PyDict Str) (line : Str) : PyDict Str :=
  if pyStrip line ≠ [] then
    let parts := pySplitWs line
    if 2 ≤ parts.length then
      dset d (strOf "Python: " ++ parts.getD 0 []) (parts.getD 1 [])
    else d
  else d

def parsePipList (out : Str) : PyDict Str :=
  ((linesOfStripped out).drop 2).foldl pipLine []

def pipBanner : Str := strOf "Scanning Python packages..."

/-- get_python_packages: pip list under a try that prints a diagnostic on
    failure. -/
def get_python_packages (o : ProbeOutcome) : Except PyExn (PyDict Str × List Str) :=
  .ok (match subprocessRun o with
    | .error e => ([], [pipBanner, strOf "Python packages scan failed: " ++ exnStr e])
    | .ok (rc, out) =>
      if rc = 0 then (parsePipList out, [pipBanner])
      else ([], [pipBanner]))

namespace SwLinux

/-! software_reader_linux.py -/

inductive PM where
  | dpkg | rpm | pacman | apk | zypper | portage
  deriving DecidableEq

def pmName : PM → Str
  | .dpkg => strOf "dpkg"
  | .rpm => strOf "rpm"
  | .pacman => strOf "pacman"
  | .apk => strOf "apk"
  | .zypper => strOf "zypper"
  | .portage => strOf "portage"

def pmList : List PM := [.dpkg, .rpm, .pacman, .apk, .zypper, .portage]

def dpkgLine (d : PyDict Str) (line : Str) : PyDict Str :=
  if strStartsWith line (strOf "ii") then
    let parts := pySplitWs line
    if 3 ≤ parts.length then dset d (parts.getD 1 []) (parts.getD 2 []) else d
  else d

/-- Exact semantics of re.match on the anchored rpm pattern
    caret (.+)-([^-]+)-([^-]+) dot (.+) dollar: the first greedy group
    takes the rightmost feasible hyphen; the third group backtracks over
    dots from the right. -/
def rpmDotPick (u : Str) : List Nat → Option Nat
  | [] => none
  | j :: rest =>
    if 1 ≤ j && j + 1 < u.length then some j else rpmDotPick u rest

def rpmCheckAt (s : Str) (i : Nat) : Option (Str × Str) :=
  let A := s.take i
  let t := s.drop (i + 1)
  let g2 := t.takeWhile (fun c => c ≠ '-')
  if g2.isEmpty then none
  else match t.drop g2.length with
    | '-' :: u =>
      let run := u.takeWhile (fun c => c ≠ '-')
      let dots := ((List.range run.length).filter (fun j => run.getD j ' ' = '.')).reverse
      match rpmDotPick u dots with
      | some j => some (A, g2 ++ '-' :: u.take j)
      | none => none
    | _ => none

def rpmMatchGo (s : Str) : List Nat → Option (Str × Str)
  | [] => none
  | i :: rest =>
    if 1 ≤ i && s.getD i ' ' = '-' then
      match rpmCheckAt s i with
      | some r => some r
      | none => rpmMatchGo s rest
    else rpmMatchGo s rest

def rpmMatch (s : Str) : Option (Str × Str) :=
  rpmMatchGo s (List.range s.length).reverse

def rpmLine (d : PyDict Str) (line : Str) : PyDict Str :=
  if containsSub line (strOf "-") then
    match rpmMatch (pyStrip line) with
    | some (name, ver) => dset d name ver
    | none => d
  else d

def pacmanLine (d : PyDict Str) (line : Str) : PyDict Str :=
  if containsSub line (strOf " ") then
    let parts := pySplitOnce ' ' line
    if parts.length = 2 then dset d (parts.getD 0 []) (parts.getD 1 []) else d
  else d

def apkLine (d : PyDict Str) (line : Str) : PyDict Str :=
  if line ≠ [] && !strStartsWith line (strOf "WARNING") then
    let parts := pySplitAll ' ' line
    if 1 ≤ parts.length then
      let pkg := parts.getD 0 []
      if containsSub pkg (strOf "-") then
        let nv := pySplitAll '-' pkg
        let name := pyJoin (strOf "-") (nv.take (nv.length - 2))
        let ver := pyJoin (strOf "-") (nv.drop (nv.length - 2))
        if name ≠ [] then dset d name ver else d
      else d
    else d
  else d

def zypperLine (d : PyDict Str) (line : Str) : PyDict Str :=
  if containsSub line (strOf "|") && !strStartsWith line (strOf "S") then
    let parts := (pySplitAll '|' line).map pyStrip
    if 3 ≤ parts.length then
      let name := parts.getD 1 []
      let ver := parts.getD 2 []
      if name ≠ [] && ver ≠ [] then dset d name ver else d
    else d
  else d

/-- Exact semantics of re.match on the anchored portage pattern
    caret (.+)/(.+)-([^-]+) dollar. -/
def portageCheckAt (s : Str) (i : Nat) : Option (Str × Str × Str) :=
  let A := s.take i
  let t := s.drop (i + 1)
  match lastIdxOfCh '-' t with
  | some m =>
    if 1 ≤ m && m + 1 < t.length then some (A, t.take m, t.drop (m + 1)) else none
  | none => none

def portageMatchGo (s : Str) : List Nat → Option (Str × Str × Str)
  | [] => none
  | i :: rest =>
    if 1 ≤ i && s.getD i ' ' = '/' then
      match portageCheckAt s i with
      | some r => some r
      | none => portageMatchGo s rest
    else portageMatchGo s rest

def portageMatch (s : Str) : Option (Str × Str × Str) :=
  portageMatchGo s (List.range s.length).reverse

def portageLine (d : PyDict Str) (line : Str) : PyDict Str :=
  if containsSub line (strOf "/") then
    match portageMatch (pyStrip line) with
    | some (cat, name, ver) => dset d (cat ++ '/' :: name) ver
    | none => d
  else d

def pmLineStep : PM → PyDict Str → Str → PyDict Str
  | .dpkg => dpkgLine
  | .rpm => rpmLine
  | .pacman => pacmanLine
  | .apk => apkLine
  | .zypper => zypperLine
  | .portage => portageLine

def parsePM (p : PM) (out : Str) : PyDict Str :=
  (linesOfStripped out).foldl (pmLineStep p) []

def msgTrying (p : PM) : Str := strOf "Trying " ++ pmName p ++ strOf " package manager..."

def msgFailed (p : PM) (e : PyExn) : Str := pmName p ++ strOf " failed: " ++ exnStr e

/-- The package-manager loop of get_linux_software: each entry is tried in
    order inside a try/except; an exception prints a diagnostic and moves
    on; exit status 0 parses the output and breaks out of the loop; any
    other exit status moves on silently. -/
def pmLoop (envpm : PM → ProbeOutcome) : List PM → PyDict Str → List Str → PyDict Str × List Str
  | [], sw, tr => (sw, tr)
  | p :: rest, sw, tr =>
    match subprocessRun (envpm p) with
    | .error e => pmLoop envpm rest sw (tr ++ [msgTrying p, msgFailed p e])
    | .ok (rc, out) =>
      if rc = 0 then (dupdate sw (parsePM p out), tr ++ [msgTrying p])
      else pmLoop envpm rest sw (tr ++ [msgTrying p])

def get_linux_software (envpm : PM → ProbeOutcome) : Except PyExn (PyDict Str × List Str) :=
  .ok (pmLoop envpm pmList [] [])

def snapLine (d : PyDict Str) (line : Str) : PyDict Str :=
  if pyStrip line ≠ [] then
    let parts := pySplitWs line
    if 2 ≤ parts.length then
      dset d (strOf "Snap: " ++ parts.getD 0 []) (parts.getD 1 [])
    else d
  else d

def parseSnapList (out : Str) : PyDict Str :=
  ((linesOfStripped out).drop 1).foldl snapLine []

def snapBanner : Str := strOf "Scanning Snap packages..."

/-- get_snap_packages: the failure branch is except Exception: pass, so a
    failing probe leaves no trace beyond the banner. -/
def get_snap_packages (o : ProbeOutcome) : Except PyExn (PyDict Str × List Str) :=
  .ok (match subprocessRun o with
    | .error _ => ([], [snapBanner])
    | .ok (rc, out) =>
      if rc = 0 then (parseSnapList out, [snapBanner]) else ([], [snapBanner]))

def flatpakLine (d : PyDict Str) (line : Str) : PyDict Str :=
  if pyStrip line ≠ [] && containsSub line (strOf "\t") then
    let parts := pySplitAll '\t' line
    if 2 ≤ parts.length then
      let name := pyStrip (parts.getD 0 [])
      let ver := pyStrip (parts.getD 1 [])
      if name ≠ [] && ver ≠ [] then dset d (strOf "Flatpak: " ++ name) ver else d
    else d
  else d

def parseFlatpakList (out : Str) : PyDict Str :=
  (linesOfStripped out).foldl flatpakLine []

def flatpakBanner : Str := strOf "Scanning Flatpak packages..."

/-- get_flatpak_packages: failure branch is again except Exception: pass. -/
def get_flatpak_packages (o : ProbeOutcome) : Except PyExn (PyDict Str × List Str) :=
  .ok (match subprocessRun o with
    | .error _ => ([], [flatpakBanner])
    | .ok (rc, out) =>
      if rc = 0 then (parseFlatpakList out, [flatpakBanner]) else ([], [flatpakBanner]))

structure Env where
  pm : PM → ProbeOutcome
  snap : ProbeOutcome
  flatpak : ProbeOutcome
  pip : ProbeOutcome

/-- get_installed_software (Linux): the four probe groups run
    unconditionally and their dictionaries are merged with dict.update. -/
def get_installed_software (env : Env) : Except PyExn (PyDict Str × List Str) := do
  let (sw, t1) ← get_linux_software env.pm
  let (d2, t2) ← get_snap_packages env.snap
  let (d3, t3) ← get_flatpak_packages env.flatpak
  let (d4, t4) ← get_python_packages env.pip
  pure (dupdate (dupdate (dupdate sw d2) d3) d4,
        strOf "Detecting software on Linux..." :: (t1 ++ t2 ++ t3 ++ t4))

structure SWSummary where
  total_count : Nat
  python_packages : Nat
  system_packages : Nat
  snap_packages : Nat
  flatpak_packages : Nat
  software_list : PyDict Str

def countKeys (p : Str → Bool) (d : PyDict Str) : Nat :=
  (d.filter (fun kv => p kv.1)).length

def software_summary_of (software : PyDict Str) : SWSummary :=
  { total_count := dlen software
  , python_packages := countKeys (fun k => strStartsWith k (strOf "Python:")) software
  , system_packages := countKeys (fun k =>
      !(strStartsWith k (strOf "Python:") || strStartsWith k (strOf "Snap:")
        || strStartsWith k (strOf "Flatpak:"))) software
  , snap_packages := countKeys (fun k => strStartsWith k (strOf "Snap:")) software
  , flatpak_packages := countKeys (fun k => strStartsWith k (strOf "Flatpak:")) software
  , software_list := software }

def get_software_summary (env : Env) : Except PyExn SWSummary := do
  let (sw, _t) ← get_installed_software env
  pure (software_summary_of sw)

end SwLinux

namespace PortListener

/-! port_listener.py -/

/-- One port record: the fixed-key dictionary every port probe builds.
    Values that Python stores as raw parsed-JSON data (port, address, pid)
    keep type JVal; values that are always strings stay Str. -/
structure PortRec where
  protocol : Str
  port : JVal
  addr : JVal
  state : Str
  pid : JVal
  process : Str

/-- The heterogeneous values of the top-level port_info dictionary. -/
inductive PortVal where
  | recs (d : PyDict PortRec)
  | msg (s : Str)

/-- re.search for pid=(digits): the first occurrence of pid= that is
    followed by at least one digit; the group is the maximal digit run. -/
def searchPidEq : Str → Option Str
  | [] => none
  | c :: rest =>
    if strStartsWith (c :: rest) (strOf "pid=") then
      let run := ((c :: rest).drop 4).takeWhile isDigitCh
      if run ≠ [] then some run else searchPidEq rest
    else searchPidEq rest

/-- re.search for an opening parenthesis, a double quote, one or more
    non-quote characters, then a closing double quote; the group is the
    quoted run. -/
def searchProcParen : Str → Option Str
  | [] => none
  | c :: rest =>
    if strStartsWith (c :: rest) (strOf "(\"") then
      let run := ((c :: rest).drop 2).takeWhile (fun x => x ≠ '"')
      if run ≠ [] && strStartsWith (((c :: rest).drop 2).drop run.length) (strOf "\"") then
        some run
      else searchProcParen rest
    else searchProcParen rest

/-- Loop body of the Linux netstat branch of get_linux_ports. -/
def netstatLinuxLine (acc : PyDict PortRec) (line : Str) : PyDict PortRec :=
  if containsSub line (strOf "LISTEN") || containsSub (toLowerStr line) (strOf "udp") then
    let parts := pySplitWs line
    if 6 ≤ parts.length then
      let protocol := parts.getD 0 []
      let localAddr := parts.getD 3 []
      let processInfo := if 6 < parts.length then parts.getD 6 [] else strOf "Unknown"
      if containsSub localAddr (strOf ":") then
        match pyRSplitOnce ':' localAddr with
        | some (ip, port) =>
          match pyInt port with
          | some portNum =>
            let key := protocol ++ ':' :: intToStr portNum
            let pidProc :=
              if containsSub processInfo (strOf "/") then
                let two := pySplitOnce '/' processInfo
                (two.getD 0 [], two.getD 1 [])
              else (strOf "Unknown", strOf "Unknown")
            dset acc key
              { protocol := protocol, port := .num portNum, addr := .str ip
              , state := strOf "LISTENING", pid := .str pidProc.1, process := pidProc.2 }
          | none => acc
        | none => acc
      else acc
    else acc
  else acc

def parseNetstatLinux (out : Str) : PyDict PortRec :=
  (linesOfStripped out).foldl netstatLinuxLine []

/-- Loop body of the ss branch of get_linux_ports. -/
def ssLine (acc : PyDict PortRec) (line : Str) : PyDict PortRec :=
  if containsSub line (strOf "LISTEN") || containsSub line (strOf "UNCONN") then
    let parts := pySplitWs line
    if 5 ≤ parts.length then
      let protocol := parts.getD 0 []
      let localAddr := parts.getD 4 []
      let processInfo := if 6 < parts.length then parts.getD 6 [] else strOf "Unknown"
      if containsSub localAddr (strOf ":") then
        match pyRSplitOnce ':' localAddr with
        | some (ip, port) =>
          match pyInt port with
          | some portNum =>
            let key := protocol ++ ':' :: intToStr portNum
            let pid :=
              if containsSub processInfo (strOf "pid=") then
                match searchPidEq processInfo with
                | some run => run
                | none => strOf "Unknown"
              else strOf "Unknown"
            let process :=
              if containsSub processInfo (strOf "(") && containsSub processInfo (strOf ")") then
                match searchProcParen processInfo with
                | some run => run
                | none => strOf "Unknown"
              else strOf "Unknown"
            dset acc key
              { protocol := protocol, port := .num portNum, addr := .str ip
              , state := strOf "LISTENING", pid := .str pid, process := process }
          | none => acc
        | none => acc
      else acc
    else acc
  else acc

def parseSs (out : Str) : PyDict PortRec :=
  ((linesOfStripped out).drop 1).foldl ssLine []

structure LinuxPortsEnv where
  netstat : ProbeOutcome
  ss : ProbeOutcome

/-- get_linux_ports: netstat then ss, each under except Exception. -/
def get_linux_ports (env : LinuxPortsEnv) : Except PyExn (PyDict PortVal) :=
  .ok (
    let pi0 : PyDict PortVal :=
      match subprocessRun env.netstat with
      | .error _ => []
      | .ok (rc, out) =>
        if rc = 0 then
          let lp := parseNetstatLinux out
          if !lp.isEmpty then dset [] (strOf "Listening Ports") (.recs lp) else []
        else []
    match subprocessRun env.ss with
    | .error _ => pi0
    | .ok (rc, out) =>
      if rc = 0 then
        let sp := parseSs out
        if !sp.isEmpty then dset pi0 (strOf "SS Listeners") (.recs sp) else pi0
      else pi0)

/-- Loop body of the netstat branch of get_windows_ports (first writer wins
    through the explicit key-not-in-dict check). -/
def netstatWinLine (acc : PyDict PortRec) (line : Str) : PyDict PortRec :=
  if containsSub line (strOf "LISTENING") || containsSub line (strOf "ESTABLISHED") then
    let parts := pySplitWs line
    if 5 ≤ parts.length then
      let protocol := parts.getD 0 []
      let localAddr := parts.getD 1 []
      let state := parts.getD 3 []
      let pid := if parts.getD 4 [] ≠ strOf "0" then parts.getD 4 [] else strOf "Unknown"
      if containsSub localAddr (strOf ":") then
        match pyRSplitOnce ':' localAddr with
        | some (ip, port) =>
          match pyInt port with
          | some portNum =>
            let key := protocol ++ ':' :: intToStr portNum
            if !dmem key acc then
              dset acc key
                { protocol := protocol, port := .num portNum, addr := .str ip
                , state := state, pid := .str pid, process := strOf "Unknown" }
            else acc
          | none => acc
        | none => acc
      else acc
    else acc
  else acc

def parseNetstatWin (out : Str) : PyDict PortRec :=
  ((linesOfStripped out).drop 4).foldl netstatWinLine []

/-- Method 2 of get_windows_ports: the PID test
    pid and pid different from Unknown and from 0. -/
def pidEligible : JVal → Option Str
  | .str s =>
    if s ≠ [] && s ≠ strOf "Unknown" && s ≠ strOf "0" then some s else none
  | v => if jTruthy v then some (jFmt v) else none

/-- Per-record tasklist enrichment of method 2, inner try included. -/
def tasklistEnrich (taskEnv : Str → ProbeOutcome) (rec : PortRec) : PortRec :=
  match pidEligible rec.pid with
  | none => rec
  | some pidStr =>
    match subprocessRun (taskEnv pidStr) with
    | .error _ => rec
    | .ok (rc, out) =>
      if rc = 0 then
        let lines := linesOfStripped out
        if 1 < lines.length then
          let processLine := pySplitAll ',' (pyRemoveCh '"' (lines.getD 1 []))
          if 0 < processLine.length then
            { rec with process := processLine.getD 0 [] }
          else rec
        else rec
      else rec

/-- Body of the PowerShell Get-NetTCPConnection parse: a JSON array gives
    one loop iteration per element, a bare JSON object one iteration. -/
def connStep (acc : PyDict PortRec) (conn : JVal) : PyDict PortRec :=
  match conn with
  | .obj kvs =>
    let port := jget kvs (strOf "LocalPort") .null
    let address := jget kvs (strOf "LocalAddress") (.str (strOf "0.0.0.0"))
    let pid := jget kvs (strOf "OwningProcess") .null
    if jTruthy port then
      dset acc (strOf "TCP:" ++ jFmt port)
        { protocol := strOf "TCP", port := port, addr := address
        , state := strOf "LISTENING", pid := pid, process := strOf "Unknown" }
    else acc
  | _ => acc

def tcpListenersOf (data : JVal) : PyDict PortRec :=
  match data with
  | .arr xs => xs.foldl connStep []
  | .obj kvs => connStep [] (.obj kvs)
  | _ => []

structure WinPortsEnv where
  netstat : ProbeOutcome
  tasklist : Str → ProbeOutcome
  ps : ProbeOutcome

/-- Method 1 of get_windows_ports: the netstat probe. -/
def winPortsM1 (o : ProbeOutcome) : PyDict PortVal :=
  match subprocessRun o with
  | .error _ => []
  | .ok (rc, out) =>
    if rc = 0 then
      let lp := parseNetstatWin out
      if !lp.isEmpty then dset [] (strOf "Listening Ports") (.recs lp) else []
    else []

/-- Method 2 of get_windows_ports: in-place tasklist enrichment of the
    records stored under Listening Ports. -/
def winPortsM2 (taskEnv : Str → ProbeOutcome) (pi0 : PyDict PortVal) : PyDict PortVal :=
  match dget pi0 (strOf "Listening Ports") with
  | some (.recs lp) =>
    dset pi0 (strOf "Listening Ports")
      (.recs (lp.map (fun kv => (kv.1, tasklistEnrich taskEnv kv.2))))
  | _ => pi0

/-- Method 3 of get_windows_ports: the PowerShell JSON probe.  The inner
    except clause catches only JSONDecodeError and AttributeError;
    everything else falls to the outer except Exception of the method. -/
def winPortsM3 (loads : Str → Except PyExn JVal) (o : ProbeOutcome)
    (pi1 : PyDict PortVal) : PyDict PortVal :=
  match subprocessRun o with
  | .error _ => pi1
  | .ok (rc, out) =>
    if rc = 0 && pyStrip out ≠ [] then
      match loads out with
      | .ok data =>
        let tcp := tcpListenersOf data
        if !tcp.isEmpty then dset pi1 (strOf "TCP Listeners") (.recs tcp) else pi1
      | .error _ => pi1
    else pi1

/-- get_windows_ports: netstat, tasklist enrichment, then the PowerShell
    JSON probe. -/
def get_windows_ports (loads : Str → Except PyExn JVal) (env : WinPortsEnv) :
    Except PyExn (PyDict PortVal) :=
  .ok (winPortsM3 loads env.ps (winPortsM2 env.tasklist (winPortsM1 env.netstat)))

/-- Loop body of the macOS netstat branch (dot-separated address.port). -/
def netstatMacLine (acc : PyDict PortRec) (line : Str) : PyDict PortRec :=
  if containsSub line (strOf "LISTEN") then
    let parts := pySplitWs line
    if 6 ≤ parts.length then
      let protocol := parts.getD 0 []
      let localAddr := parts.getD 3 []
      if containsSub localAddr (strOf ".") then
        match pyRSplitOnce '.' localAddr with
        | some (ip, port) =>
          match pyInt port with
          | some portNum =>
            dset acc (protocol ++ ':' :: intToStr portNum)
              { protocol := protocol, port := .num portNum, addr := .str ip
              , state := strOf "LISTENING", pid := .str (strOf "Unknown")
              , process := strOf "Unknown" }
          | none => acc
        | none => acc
      else acc
    else acc
  else acc

def parseNetstatMac (out : Str) : PyDict PortRec :=
  (linesOfStripped out).foldl netstatMacLine []

/-- Loop body of the lsof branch of get_macos_ports. -/
def lsofLine (acc : PyDict PortRec) (line : Str) : PyDict PortRec :=
  if containsSub line (strOf "LISTEN") then
    let parts := pySplitWs line
    if 9 ≤ parts.length then
      let process := parts.getD 0 []
      let pid := parts.getD 1 []
      let protocolPort := parts.getD 8 []
      if containsSub protocolPort (strOf ":") && !containsSub protocolPort (strOf "->") then
        match pyRSplitOnce ':' protocolPort with
        | some (address, port) =>
          match pyInt port with
          | some portNum =>
            dset acc (strOf "TCP:" ++ intToStr portNum)
              { protocol := strOf "TCP", port := .num portNum
              , addr := .str (if address ≠ strOf "*" then address else strOf "0.0.0.0")
              , state := strOf "LISTENING", pid := .str pid, process := process }
          | none => acc
        | none => acc
      else acc
    else acc
  else acc

def parseLsof (out : Str) : PyDict PortRec :=
  ((linesOfStripped out).drop 1).foldl lsofLine []

structure MacPortsEnv where
  netstat : ProbeOutcome
  lsof : ProbeOutcome

/-- get_macos_ports: netstat then lsof, each under except Exception. -/
def get_macos_ports (env : MacPortsEnv) : Except PyExn (PyDict PortVal) :=
  .ok (
    let pi0 : PyDict PortVal :=
      match subprocessRun env.netstat with
      | .error _ => []
      | .ok (rc, out) =>
        if rc = 0 then
          let lp := parseNetstatMac out
          if !lp.isEmpty then dset [] (strOf "Listening Ports") (.recs lp) else []
        else []
    match subprocessRun env.lsof with
    | .error _ => pi0
    | .ok (rc, out) =>
      if rc = 0 then
        let lp := parseLsof out
        if !lp.isEmpty then dset pi0 (strOf "LSOF Listeners") (.recs lp) else pi0
      else pi0)

end PortListener

/-- The platform identifier: platform.system().lower(), with the three
    supported answers distinguished and every other answer kept as its
    literal text. -/
inductive OSName where
  | windows
  | linux
  | darwin
  | other (s : Str)

def osLower : OSName → Str
  | .windows => strOf "windows"
  | .linux => strOf "linux"
  | .darwin => strOf "darwin"
  | .other s => s

namespace PortListener

/-- get_listening_ports: dynamic platform dispatch; any unsupported system
    returns the single-entry error dictionary. -/
def get_listening_ports (os : OSName) (loads : Str → Except PyExn JVal)
    (envW : WinPortsEnv) (envL : LinuxPortsEnv) (envM : MacPortsEnv) :
    Except PyExn (PyDict PortVal) :=
  match os with
  | .windows => get_windows_ports loads envW
  | .linux => get_linux_ports envL
  | .darwin => get_macos_ports envM
  | .other s =>
    .ok [(strOf "error", .msg (strOf "Unsupported operating system: " ++ s))]

end PortListener

namespace SwWindows

/-! software_reader_windows.py -/

/-- Loop body of the wmic CSV parse (method 1): unconditional insertion. -/
def wmicLine (d : PyDict Str) (line : Str) : PyDict Str :=
  if pyStrip line ≠ [] && containsSub line (strOf ",") then
    let parts := pySplitAll ',' line
    if 3 ≤ parts.length then
      let name := pyStrip (parts.getD 1 [])
      let version := pyStrip (parts.getD 2 [])
      if name ≠ [] && version ≠ [] then dset d name version else d
    else d
  else d

def parseWmic (out : Str) : PyDict Str :=
  ((linesOfStripped out).drop 1).foldl wmicLine []

/-- version.strip() if version and isinstance(version, str) else Unknown. -/
def versionText (v : JVal) : Str :=
  match jStrOpt v with
  | some vs => if vs ≠ [] then pyStrip vs else strOf "Unknown"
  | none => strOf "Unknown"

/-- One registry JSON item (method 2): insertion guarded by the
    name-not-already-present test. -/
def regItemStep (d : PyDict Str) (item : JVal) : PyDict Str :=
  match item with
  | .obj kvs =>
    let name := jget kvs (strOf "DisplayName") .null
    let version := jget kvs (strOf "DisplayVersion") .null
    match jStrOpt name with
    | some s =>
      if s ≠ [] then
        let s2 := pyStrip s
        if s2 ≠ [] && !dmem s2 d then dset d s2 (versionText version) else d
      else d
    | none => d
  | _ => d

def regDataStep (d : PyDict Str) (data : JVal) : PyDict Str :=
  match data with
  | .arr xs => xs.foldl regItemStep d
  | .obj kvs => regItemStep d (.obj kvs)
  | _ => d

inductive RegPath where
  | hklm | wow | hkcu
  deriving DecidableEq

def regPaths : List RegPath := [.hklm, .wow, .hkcu]

def regPathStr : RegPath → Str
  | .hklm => strOf "HKLM:\\Software\\Microsoft\\Windows\\CurrentVersion\\Uninstall\\*"
  | .wow => strOf "HKLM:\\Software\\Wow6432Node\\Microsoft\\Windows\\CurrentVersion\\Uninstall\\*"
  | .hkcu => strOf "HKCU:\\Software\\Microsoft\\Windows\\CurrentVersion\\Uninstall\\*"

/-- The registry loop of method 2 over the three registry paths; the inner
    except catches only JSONDecodeError and AttributeError, anything else
    reaches the per-path except Exception.  Either way the dictionary
    gathered so far is kept. -/
def regPathStep (loads : Str → Except PyExn JVal) (regEnv : RegPath → ProbeOutcome)
    (acc0 : PyDict Str × List Str) (p : RegPath) : PyDict Str × List Str :=
  let acc := (acc0.1, acc0.2 ++ [strOf "Scanning registry path: Uninstall..."])
  match subprocessRun (regEnv p) with
  | .error e =>
    (acc.1, acc.2 ++ [strOf "Registry scan failed for " ++ regPathStr p ++ strOf ": " ++ exnStr e])
  | .ok (rc, out) =>
    if rc = 0 && pyStrip out ≠ [] then
      match loads out with
      | .ok data => (regDataStep acc.1 data, acc.2)
      | .error .jsonDecodeError =>
        (acc.1, acc.2 ++ [strOf "JSON parsing failed for " ++ regPathStr p ++ strOf ": JSONDecodeError"])
      | .error .attributeError =>
        (acc.1, acc.2 ++ [strOf "JSON parsing failed for " ++ regPathStr p ++ strOf ": AttributeError"])
      | .error e =>
        (acc.1, acc.2 ++ [strOf "Registry scan failed for " ++ regPathStr p ++ strOf ": " ++ exnStr e])
    else acc

def regMethod (loads : Str → Except PyExn JVal) (regEnv : RegPath → ProbeOutcome)
    (start : PyDict Str × List Str) : PyDict Str × List Str :=
  regPaths.foldl (regPathStep loads regEnv) start

/-- One Get-Package JSON item (method 3): display name is
    name (source) when a source is present; insertion guarded by the
    not-already-present test. -/
def pkgItemStep (d : PyDict Str) (item : JVal) : PyDict Str :=
  match item with
  | .obj kvs =>
    let name := jget kvs (strOf "Name") .null
    let version := jget kvs (strOf "Version") .null
    let source := jget kvs (strOf "Source") (.str [])
    match jStrOpt name with
    | some s =>
      if s ≠ [] then
        let s2 := pyStrip s
        let display := if jTruthy source then s2 ++ strOf " (" ++ jFmt source ++ strOf ")" else s2
        if !dmem display d then dset d display (versionText version) else d
      else d
    | none => d
  | _ => d

def pkgDataStep (d : PyDict Str) (data : JVal) : PyDict Str :=
  match data with
  | .arr xs => xs.foldl pkgItemStep d
  | .obj kvs => pkgItemStep d (.obj kvs)
  | _ => d

/-- One Get-AppxPackage JSON item (method 4): display name is
    Store: name; insertion guarded by the not-already-present test. -/
def appxItemStep (d : PyDict Str) (item : JVal) : PyDict Str :=
  match item with
  | .obj kvs =>
    let name := jget kvs (strOf "Name") .null
    let version := jget kvs (strOf "Version") .null
    match jStrOpt name with
    | some s =>
      if s ≠ [] then
        let display := strOf "Store: " ++ pyStrip s
        if !dmem display d then dset d display (versionText version) else d
      else d
    | none => d
  | _ => d

def appxDataStep (d : PyDict Str) (data : JVal) : PyDict Str :=
  match data with
  | .arr xs => xs.foldl appxItemStep d
  | .obj kvs => appxItemStep d (.obj kvs)
  | _ => d

structure Env where
  wmic : ProbeOutcome
  reg : RegPath → ProbeOutcome
  getpkg : ProbeOutcome
  appx : ProbeOutcome
  pip : ProbeOutcome

/-- Method 1 of get_windows_software. -/
def wmicMethod (env : Env) : PyDict Str × List Str :=
  let banner := strOf "Scanning Windows software via WMI..."
  match subprocessRun env.wmic with
  | .error e => ([], [banner, strOf "WMI method failed: " ++ exnStr e])
  | .ok (rc, out) =>
    if rc = 0 then (parseWmic out, [banner]) else ([], [banner])

/-- A JSON-probe method shared shape for methods 3 and 4: run, gate on
    exit status and nonempty stdout, parse, fold; the inner except catches
    JSONDecodeError and AttributeError, the outer except everything. -/
def jsonMethod (loads : Str → Except PyExn JVal) (o : ProbeOutcome)
    (step : PyDict Str → JVal → PyDict Str) (banner innerFail outerFail : Str)
    (acc : PyDict Str × List Str) : PyDict Str × List Str :=
  let acc := (acc.1, acc.2 ++ [banner])
  match subprocessRun o with
  | .error e => (acc.1, acc.2 ++ [outerFail ++ exnStr e])
  | .ok (rc, out) =>
    if rc = 0 && pyStrip out ≠ [] then
      match loads out with
      | .ok data => (step acc.1 data, acc.2)
      | .error .jsonDecodeError => (acc.1, acc.2 ++ [innerFail ++ strOf "JSONDecodeError"])
      | .error .attributeError => (acc.1, acc.2 ++ [innerFail ++ strOf "AttributeError"])
      | .error e => (acc.1, acc.2 ++ [outerFail ++ exnStr e])
    else acc

/-- get_windows_software: wmic, the registry paths, PackageManagement,
    then AppX, all feeding one dictionary. -/
def get_windows_software (loads : Str → Except PyExn JVal) (env : Env) :
    Except PyExn (PyDict Str × List Str) :=
  .ok (
    let a1 := wmicMethod env
    let a2 := regMethod loads env.reg a1
    let a3 := jsonMethod loads env.getpkg pkgDataStep
      (strOf "Scanning via PackageManagement...")
      (strOf "PackageManagement JSON parsing failed: ")
      (strOf "PackageManagement method failed: ") a2
    jsonMethod loads env.appx appxDataStep
      (strOf "Scanning Windows Store apps...")
      (strOf "AppX JSON parsing failed: ")
      (strOf "AppX method failed: ") a3)

/-- get_installed_software (Windows). -/
def get_installed_software (loads : Str → Except PyExn JVal) (env : Env) :
    Except PyExn (PyDict Str × List Str) := do
  let (w, t1) ← get_windows_software loads env
  let (p, t2) ← get_python_packages env.pip
  pure (dupdate w p, strOf "Detecting software on Windows..." :: (t1 ++ t2))

end SwWindows

namespace SwMacos

/-! software_reader_macos.py -/

/-- Last index at which pat starts inside s, if any. -/
def lastSubGo (pat : Str) : Str → Nat → Option Nat → Option Nat
  | [], _, best => best
  | c :: rest, i, best =>
    lastSubGo pat rest (i + 1) (if strStartsWith (c :: rest) pat then some i else best)

def lastSubIdx (pat s : Str) : Option Nat := lastSubGo pat s 0 none

/-- re.search for an xml string element: the first opening string tag
    whose greedy group reaches the last closing string tag after it, with
    at least one character between the tags. -/
def searchStringTag : Str → Option Str
  | [] => none
  | c :: rest =>
    if strStartsWith (c :: rest) (strOf "<string>") then
      let t := (c :: rest).drop 8
      match lastSubIdx (strOf "</string>") t with
      | some j => if 1 ≤ j then some (t.take j) else searchStringTag rest
      | none => searchStringTag rest
    else searchStringTag rest

/-- The enumerate loop of get_macos_applications: a name key line peeks at
    the next line for the application name; a version key line, with an
    application pending, peeks at the next line for the version and
    records the pair. -/
def profilerGo : Option Str → List Str → PyDict Str → PyDict Str
  | _, [], d => d
  | cur, line :: rest, d =>
    if containsSub line (strOf "<key>_name</key>") then
      let newCur :=
        match rest with
        | nxt :: _ =>
          match searchStringTag nxt with
          | some g => some g
          | none => cur
        | [] => cur
      profilerGo newCur rest d
    else
      if containsSub line (strOf "<key>version</key>") &&
          (match cur with | some app => !app.isEmpty | none => false) then
        match cur with
        | some app =>
          (match rest with
           | nxt :: _ =>
             match searchStringTag nxt with
             | some g => profilerGo none rest (dset d app g)
             | none => profilerGo cur rest d
           | [] => profilerGo cur rest d)
        | none => profilerGo cur rest d
      else profilerGo cur rest d

def parseProfiler (out : Str) : PyDict Str :=
  profilerGo none (linesOfRaw out) []

/-- get_macos_applications: system_profiler with a printed diagnostic on
    failure. -/
def get_macos_applications (o : ProbeOutcome) : Except PyExn (PyDict Str × List Str) :=
  .ok (
    let banner := strOf "Scanning macOS applications..."
    match subprocessRun o with
    | .error e => ([], [banner, strOf "macOS system_profiler failed: " ++ exnStr e])
    | .ok (rc, out) =>
      if rc = 0 then (parseProfiler out, [banner]) else ([], [banner]))

def brewLine (pre : Str) (d : PyDict Str) (line : Str) : PyDict Str :=
  if pyStrip line ≠ [] then
    let parts := pySplitOnce ' ' line
    if 2 ≤ parts.length then dset d (pre ++ parts.getD 0 []) (parts.getD 1 []) else d
  else d

def parseBrewList (out : Str) : PyDict Str :=
  (linesOfStripped out).foldl (brewLine (strOf "Homebrew: ")) []

def brewBanner : Str := strOf "Scanning Homebrew packages..."

/-- get_homebrew_packages: the failure branch is except Exception: pass. -/
def get_homebrew_packages (o : ProbeOutcome) : Except PyExn (PyDict Str × List Str) :=
  .ok (match subprocessRun o with
    | .error _ => ([], [brewBanner])
    | .ok (rc, out) =>
      if rc = 0 then (parseBrewList out, [brewBanner]) else ([], [brewBanner]))

/-- Loop body of get_homebrew_cask_packages: a line without a space still
    yields an entry with version Unknown. -/
def caskLine (d : PyDict Str) (line : Str) : PyDict Str :=
  if pyStrip line ≠ [] then
    let parts := pySplitOnce ' ' line
    if 2 ≤ parts.length then
      dset d (strOf "Homebrew Cask: " ++ parts.getD 0 []) (parts.getD 1 [])
    else
      if parts.length = 1 then
        dset d (strOf "Homebrew Cask: " ++ parts.getD 0 []) (strOf "Unknown")
      else d
  else d

def parseCaskList (out : Str) : PyDict Str :=
  (linesOfStripped out).foldl caskLine []

def caskBanner : Str := strOf "Scanning Homebrew Cask packages..."

def get_homebrew_cask_packages (o : ProbeOutcome) : Except PyExn (PyDict Str × List Str) :=
  .ok (match subprocessRun o with
    | .error _ => ([], [caskBanner])
    | .ok (rc, out) =>
      if rc = 0 then (parseCaskList out, [caskBanner]) else ([], [caskBanner]))

/-- re.match semantics for the anchored-prefix MacPorts pattern:
    nonspace run, space run, an at sign, then a run free of whitespace and
    plus signs. -/
def macportsMatch (s : Str) : Option (Str × Str) :=
  let name := s.takeWhile (fun c => !isSpaceCh c)
  if name.isEmpty then none
  else
    let t := s.drop name.length
    let sp := t.takeWhile isSpaceCh
    if sp.isEmpty then none
    else
      match t.drop sp.length with
      | '@' :: u =>
        let ver := u.takeWhile (fun c => !isSpaceCh c && c ≠ '+')
        if ver.isEmpty then none else some (name, ver)
      | _ => none

def macportsLine (d : PyDict Str) (line : Str) : PyDict Str :=
  if pyStrip line ≠ [] then
    match macportsMatch (pyStrip line) with
    | some (name, ver) => dset d (strOf "MacPorts: " ++ name) ver
    | none => d
  else d

def parseMacports (out : Str) : PyDict Str :=
  ((linesOfStripped out).drop 1).foldl macportsLine []

def macportsBanner : Str := strOf "Scanning MacPorts packages..."

def get_macports_packages (o : ProbeOutcome) : Except PyExn (PyDict Str × List Str) :=
  .ok (match subprocessRun o with
    | .error _ => ([], [macportsBanner])
    | .ok (rc, out) =>
      if rc = 0 then (parseMacports out, [macportsBanner]) else ([], [macportsBanner]))

/-- Lazy-group check for the mas pattern: accRev holds the reversed
    candidate name group; the remainder must be a space run, an opening
    parenthesis, a nonempty run free of closing parentheses, and a closing
    parenthesis ending the line. -/
def masCheck (accRev rest : Str) : Option (Str × Str) :=
  if accRev.isEmpty then none
  else
    let s2 := rest.takeWhile isSpaceCh
    if s2.isEmpty then none
    else
      match rest.drop s2.length with
      | '(' :: u =>
        match u.getLast? with
        | some ')' =>
          let p := u.dropLast
          if !p.isEmpty && !(p.any (fun c => c = ')')) then some (accRev.reverse, p)
          else none
        | _ => none
      | _ => none

/-- The lazy quantifier grows the name group one character at a time,
    checking the rigid tail after each step. -/
def masGo : Str → Str → Option (Str × Str)
  | accRev, rest =>
    match masCheck accRev rest with
    | some r => some r
    | none =>
      match rest with
      | [] => none
      | c :: r2 => masGo (c :: accRev) r2
termination_by accRev rest => rest.length

/-- re.match semantics for the anchored mas pattern: digit run, space run,
    lazy name group, space run, then a parenthesised version ending the
    line. -/
def masMatch (s : Str) : Option (Str × Str × Str) :=
  let ds := s.takeWhile isDigitCh
  if ds.isEmpty then none
  else
    let t1 := s.drop ds.length
    let s1 := t1.takeWhile isSpaceCh
    if s1.isEmpty then none
    else
      match masGo [] (t1.drop s1.length) with
      | some (m, p) => some (ds, m, p)
      | none => none

def masLine (d : PyDict Str) (line : Str) : PyDict Str :=
  if pyStrip line ≠ [] then
    match masMatch (pyStrip line) with
    | some (_, name, ver) => dset d (strOf "App Store: " ++ name) ver
    | none => d
  else d

def parseMas (out : Str) : PyDict Str :=
  (linesOfStripped out).foldl masLine []

def masBanner : Str := strOf "Scanning Mac App Store apps..."

def get_app_store_apps (o : ProbeOutcome) : Except PyExn (PyDict Str × List Str) :=
  .ok (match subprocessRun o with
    | .error _ => ([], [masBanner])
    | .ok (rc, out) =>
      if rc = 0 then (parseMas out, [masBanner]) else ([], [masBanner]))

structure Env where
  profiler : ProbeOutcome
  brew : ProbeOutcome
  cask : ProbeOutcome
  port : ProbeOutcome
  mas : ProbeOutcome
  pip : ProbeOutcome

/-- get_installed_software (macOS): six probe groups merged with
    dict.update. -/
def get_installed_software (env : Env) : Except PyExn (PyDict Str × List Str) := do
  let (d1, t1) ← get_macos_applications env.profiler
  let (d2, t2) ← get_homebrew_packages env.brew
  let (d3, t3) ← get_homebrew_cask_packages env.cask
  let (d4, t4) ← get_macports_packages env.port
  let (d5, t5) ← get_app_store_apps env.mas
  let (d6, t6) ← get_python_packages env.pip
  pure (dupdate (dupdate (dupdate (dupdate (dupdate d1 d2) d3) d4) d5) d6,
        strOf "Detecting software on macOS..." :: (t1 ++ t2 ++ t3 ++ t4 ++ t5 ++ t6))

end SwMacos

namespace SwReader

/-! software_reader.py -/

inductive Reader where
  | windowsReader | linuxReader | macosReader

/-- get_platform_reader: returns the platform module, raising OSError for
    any other system. -/
def get_platform_reader : OSName → Except PyExn Reader
  | .windows => .ok .windowsReader
  | .linux => .ok .linuxReader
  | .darwin => .ok .macosReader
  | .other s => .error (.osError (strOf "Unsupported operating system: " ++ s))

/-- get_installed_software (dispatcher): the OSError from an unsupported
    platform propagates to the caller. -/
def get_installed_software (os : OSName) (loads : Str → Except PyExn JVal)
    (envW : SwWindows.Env) (envL : SwLinux.Env) (envM : SwMacos.Env) :
    Except PyExn (PyDict Str × List Str) := do
  let r ← get_platform_reader os
  match r with
  | .windowsReader => SwWindows.get_installed_software loads envW
  | .linuxReader => SwLinux.get_installed_software envL
  | .macosReader => SwMacos.get_installed_software envM

end SwReader

namespace Firmware

/-! hardware_firmware_reader.py -/

/-- The heterogeneous values of the top-level firmware_info dictionary:
    a flat attribute block, a per-device nested block, or the error
    message of the unsupported-platform branch. -/
inductive FirmVal where
  | flat (d : PyDict JVal)
  | nested (d : PyDict (PyDict JVal))
  | msg (s : Str)

def unknownJ : JVal := .str (strOf "Unknown")

/-- The common gate of every Windows firmware method: ran, exit status 0,
    nonempty stdout, then json.loads under the inner except clause that
    catches only JSONDecodeError and AttributeError (anything else reaches
    the per-method except Exception; either way the dictionary is
    unchanged). -/
def jsonGate (loads : Str → Except PyExn JVal) (o : ProbeOutcome)
    (handle : PyDict FirmVal → JVal → PyDict FirmVal)
    (fi : PyDict FirmVal) : PyDict FirmVal :=
  match subprocessRun o with
  | .error _ => fi
  | .ok (rc, out) =>
    if rc = 0 && pyStrip out ≠ [] then
      match loads out with
      | .ok data => handle fi data
      | .error _ => fi
    else fi

/-- Method 1 (Win32_BIOS): only a bare JSON object is consumed. -/
def winBiosHandle (fi : PyDict FirmVal) (data : JVal) : PyDict FirmVal :=
  match data with
  | .obj kvs =>
    dset fi (strOf "BIOS/UEFI") (.flat
      [ (strOf "Manufacturer", jget kvs (strOf "Manufacturer") unknownJ)
      , (strOf "Name", jget kvs (strOf "Name") unknownJ)
      , (strOf "Version", jget kvs (strOf "Version") unknownJ)
      , (strOf "Release Date", jget kvs (strOf "ReleaseDate") unknownJ)
      , (strOf "Serial Number", jget kvs (strOf "SerialNumber") unknownJ) ])
  | _ => fi

/-- Method 2 (Win32_BaseBoard). -/
def winBoardHandle (fi : PyDict FirmVal) (data : JVal) : PyDict FirmVal :=
  match data with
  | .obj kvs =>
    dset fi (strOf "Motherboard") (.flat
      [ (strOf "Manufacturer", jget kvs (strOf "Manufacturer") unknownJ)
      , (strOf "Product", jget kvs (strOf "Product") unknownJ)
      , (strOf "Version", jget kvs (strOf "Version") unknownJ)
      , (strOf "Serial Number", jget kvs (strOf "SerialNumber") unknownJ) ])
  | _ => fi

/-- The per-device accumulation shared by methods 3 to 5: array elements
    are keyed by a name field with an enumerated fallback, a bare object by
    the same name field with a fixed fallback. -/
def deviceStep (nameKey : Str) (fallback : Nat → Str)
    (fields : List (Str × JVal) → PyDict JVal)
    (acc : PyDict (PyDict JVal)) (iItem : Nat × JVal) : PyDict (PyDict JVal) :=
  match iItem.2 with
  | .obj kvs =>
    dset acc (jFmt (jget kvs nameKey (.str (fallback iItem.1)))) (fields kvs)
  | _ => acc

def winDevicesHandle (nameKey : Str) (fallbackIdx : Nat → Str) (fallbackOne : Str)
    (fields : List (Str × JVal) → PyDict JVal) (category : Str)
    (fi : PyDict FirmVal) (data : JVal) : PyDict FirmVal :=
  let devices : PyDict (PyDict JVal) :=
    match data with
    | .arr xs => xs.enum.foldl (deviceStep nameKey fallbackIdx fields) []
    | .obj kvs => deviceStep nameKey (fun _ => fallbackOne) fields [] (0, .obj kvs)
    | _ => []
  if !devices.isEmpty then dset fi category (.nested devices) else fi

def netAdapterFields (kvs : List (Str × JVal)) : PyDict JVal :=
  [ (strOf "Manufacturer", jget kvs (strOf "Manufacturer") unknownJ)
  , (strOf "Description", jget kvs (strOf "Description") unknownJ)
  , (strOf "Driver Version", jget kvs (strOf "DriverVersion") unknownJ) ]

def diskFields (kvs : List (Str × JVal)) : PyDict JVal :=
  [ (strOf "Manufacturer", jget kvs (strOf "Manufacturer") unknownJ)
  , (strOf "Firmware Revision", jget kvs (strOf "FirmwareRevision") unknownJ)
  , (strOf "Serial Number", jget kvs (strOf "SerialNumber") unknownJ)
  , (strOf "Interface Type", jget kvs (strOf "InterfaceType") unknownJ) ]

def videoFields (kvs : List (Str × JVal)) : PyDict JVal :=
  [ (strOf "Driver Version", jget kvs (strOf "DriverVersion") unknownJ)
  , (strOf "Driver Date", jget kvs (strOf "DriverDate") unknownJ)
  , (strOf "Video Processor", jget kvs (strOf "VideoProcessor") unknownJ) ]

structure WinFirmEnv where
  bios : ProbeOutcome
  board : ProbeOutcome
  net : ProbeOutcome
  disk : ProbeOutcome
  video : ProbeOutcome

/-- get_windows_firmware: five WMI JSON probes in sequence. -/
def get_windows_firmware (loads : Str → Except PyExn JVal) (env : WinFirmEnv) :
    Except PyExn (PyDict FirmVal) :=
  .ok (
    let f1 := jsonGate loads env.bios winBiosHandle []
    let f2 := jsonGate loads env.board winBoardHandle f1
    let f3 := jsonGate loads env.net
      (winDevicesHandle (strOf "Name")
        (fun i => strOf "Network Adapter " ++ natToStr (i + 1))
        (strOf "Network Adapter") netAdapterFields (strOf "Network Adapters")) f2
    let f4 := jsonGate loads env.disk
      (winDevicesHandle (strOf "Model")
        (fun i => strOf "Storage Device " ++ natToStr (i + 1))
        (strOf "Storage Device") diskFields (strOf "Storage Devices")) f3
    jsonGate loads env.video
      (winDevicesHandle (strOf "Name")
        (fun i => strOf "Graphics Card " ++ natToStr (i + 1))
        (strOf "Graphics Card") videoFields (strOf "Graphics Cards")) f4)

/-- Loop body of the dmidecode parse (elif chain over marker substrings). -/
def dmiLine (b : PyDict JVal) (line : Str) : PyDict JVal :=
  if containsSub line (strOf "Vendor:") then
    dset b (strOf "Manufacturer") (.str (pyStrip ((pySplitOnce ':' line).getD 1 [])))
  else if containsSub line (strOf "Version:") then
    dset b (strOf "Version") (.str (pyStrip ((pySplitOnce ':' line).getD 1 [])))
  else if containsSub line (strOf "Release Date:") then
    dset b (strOf "Release Date") (.str (pyStrip ((pySplitOnce ':' line).getD 1 [])))
  else b

def parseDmi (out : Str) : PyDict JVal :=
  (linesOfRaw out).foldl dmiLine []

/-- State machine of the lspci parse: a controller line opens a device
    (with an empty attribute block), a kernel-driver line fills the Driver
    attribute of the open device. -/
def lspciGo : Option Str → List Str → PyDict (PyDict JVal) → PyDict (PyDict JVal)
  | _, [], nd => nd
  | cur, line :: rest, nd =>
    if containsSub line (strOf "Ethernet controller") || containsSub line (strOf "Network controller") then
      let dev :=
        if containsSub line (strOf ": ") then
          match splitSubOnce (strOf ": ") line with
          | some (_, b) => b
          | none => line
        else line
      lspciGo (some dev) rest (dset nd dev [])
    else
      if (match cur with | some s => !s.isEmpty | none => false) &&
          containsSub line (strOf "Kernel driver in use:") then
        match cur with
        | some dev =>
          let inner := match dget nd dev with | some i => i | none => []
          lspciGo cur rest
            (dset nd dev (dset inner (strOf "Driver")
              (.str (pyStrip ((pySplitOnce ':' line).getD 1 [])))))
        | none => lspciGo cur rest nd
      else lspciGo cur rest nd

def parseLspci (out : Str) : PyDict (PyDict JVal) :=
  lspciGo none (linesOfRaw out) []

/-- Loop body of the lsblk parse. -/
def lsblkLine (acc : PyDict (PyDict JVal)) (line : Str) : PyDict (PyDict JVal) :=
  let parts := pySplitWs line
  if 2 ≤ parts.length && !strStartsWith (parts.getD 0 []) (strOf "â”œ")
      && !strStartsWith (parts.getD 0 []) (strOf "â””") then
    let deviceName :=
      if 1 < parts.length && parts.getD 1 [] ≠ [] then parts.getD 1 [] else parts.getD 0 []
    let info0 : PyDict JVal := []
    let info1 := if 2 < parts.length then dset info0 (strOf "Serial") (.str (parts.getD 2 [])) else info0
    let info2 := if 3 < parts.length then dset info1 (strOf "Firmware Revision") (.str (parts.getD 3 [])) else info1
    if !info2.isEmpty then dset acc deviceName info2 else acc
  else acc

def parseLsblk (out : Str) : PyDict (PyDict JVal) :=
  ((linesOfStripped out).drop 1).foldl lsblkLine []

structure LinFirmEnv where
  dmi : ProbeOutcome
  lspci : ProbeOutcome
  lsblk : ProbeOutcome

/-- get_linux_firmware: dmidecode, lspci, lsblk, each under except
    Exception. -/
def get_linux_firmware (env : LinFirmEnv) : Except PyExn (PyDict FirmVal) :=
  .ok (
    let f1 : PyDict FirmVal :=
      match subprocessRun env.dmi with
      | .error _ => []
      | .ok (rc, out) =>
        if rc = 0 then
          let bios := parseDmi out
          if !bios.isEmpty then dset [] (strOf "BIOS/UEFI") (.flat bios) else []
        else []
    let f2 : PyDict FirmVal :=
      match subprocessRun env.lspci with
      | .error _ => f1
      | .ok (rc, out) =>
        if rc = 0 then
          let nd := parseLspci out
          if !nd.isEmpty then dset f1 (strOf "Network Devices") (.nested nd) else f1
        else f1
    match subprocessRun env.lsblk with
    | .error _ => f2
    | .ok (rc, out) =>
      if rc = 0 then
        let sd := parseLsblk out
        if !sd.isEmpty then dset f2 (strOf "Storage Devices") (.nested sd) else f2
      else f2)

/-- Method 1 of get_macos_firmware: only a JSON object whose hardware key
    holds a nonempty array with an object head produces the block; every
    other shape raises inside the try (AttributeError or KeyError) and is
    caught, leaving the dictionary unchanged. -/
def macHwHandle (fi : PyDict FirmVal) (data : JVal) : PyDict FirmVal :=
  match data with
  | .obj kvs =>
    match jget kvs (strOf "SPHardwareDataType") (.arr []) with
    | .arr (hw :: _) =>
      match hw with
      | .obj hkvs =>
        dset fi (strOf "System Firmware") (.flat
          [ (strOf "Boot ROM Version", jget hkvs (strOf "boot_rom_version") unknownJ)
          , (strOf "SMC Version", jget hkvs (strOf "SMC_version_system") unknownJ)
          , (strOf "Serial Number", jget hkvs (strOf "serial_number") unknownJ) ])
      | _ => fi
    | _ => fi
  | _ => fi

def macStorageStep (acc : PyDict (PyDict JVal)) (device : JVal) : PyDict (PyDict JVal) :=
  match device with
  | .obj kvs =>
    dset acc (jFmt (jget kvs (strOf "_name") (.str (strOf "Unknown Storage"))))
      [ (strOf "Physical Drive", jget kvs (strOf "com.apple.diskUtility.partitionMapType") unknownJ)
      , (strOf "Media Name", jget kvs (strOf "device_model") unknownJ)
      , (strOf "Revision", jget kvs (strOf "device_revision") unknownJ) ]
  | _ => acc

/-- Method 2 of get_macos_firmware: the loop only completes when the
    storage key holds an array of objects; a non-object element raises
    mid-loop, the partial dictionary is discarded and the block is never
    stored. -/
def macStorageHandle (fi : PyDict FirmVal) (data : JVal) : PyDict FirmVal :=
  match data with
  | .obj kvs =>
    match jget kvs (strOf "SPStorageDataType") (.arr []) with
    | .arr xs =>
      if xs.all (fun x => match x with | .obj _ => true | _ => false) then
        let sd := xs.foldl macStorageStep []
        if !sd.isEmpty then dset fi (strOf "Storage Devices") (.nested sd) else fi
      else fi
    | _ => fi
  | _ => fi

structure MacFirmEnv where
  hw : ProbeOutcome
  storage : ProbeOutcome

/-- The macOS firmware gate differs from the Windows one: stdout is not
    checked for emptiness before json.loads. -/
def jsonGateMac (loads : Str → Except PyExn JVal) (o : ProbeOutcome)
    (handle : PyDict FirmVal → JVal → PyDict FirmVal)
    (fi : PyDict FirmVal) : PyDict FirmVal :=
  match subprocessRun o with
  | .error _ => fi
  | .ok (rc, out) =>
    if rc = 0 then
      match loads out with
      | .ok data => handle fi data
      | .error _ => fi
    else fi

def get_macos_firmware (loads : Str → Except PyExn JVal) (env : MacFirmEnv) :
    Except PyExn (PyDict FirmVal) :=
  .ok (
    let f1 := jsonGateMac loads env.hw macHwHandle []
    jsonGateMac loads env.storage macStorageHandle f1)

/-- get_firmware_info: dynamic platform dispatch; any unsupported system
    returns the single-entry error dictionary. -/
def get_firmware_info (os : OSName) (loads : Str → Except PyExn JVal)
    (envW : WinFirmEnv) (envL : LinFirmEnv) (envM : MacFirmEnv) :
    Except PyExn (PyDict FirmVal) :=
  match os with
  | .windows => get_windows_firmware loads envW
  | .linux => get_linux_firmware envL
  | .darwin => get_macos_firmware loads envM
  | .other s =>
    .ok [(strOf "error", .msg (strOf "Unsupported operating system: " ++ s))]

end Firmware

/-! Claim-level definitions: projections used to state the claims, and the
    spec sentences formalised as predicates over the embedded program. -/

def dictOf (r : Except PyExn (PyDict Str × List Str)) : PyDict Str :=
  match r with
  | .ok (d, _) => d
  | .error _ => []

def trailOf (r : Except PyExn (PyDict Str × List Str)) : List Str :=
  match r with
  | .ok (_, t) => t
  | .error _ => []

/-- C1 as stated by the spec: when two probes of one chain produce the
    same identity, the merge (dict.update in every collector) keeps the
    value the first probe resolved, whenever that value is not the unset
    marker Unknown. -/
def firstWriterWinsMerge : Prop :=
  ∀ (A B : PyDict Str) (k v : Str),
    nodupKeysB A = true → nodupKeysB B = true →
    dget A k = some v → v ≠ strOf "Unknown" →
    dget (dupdate A B) k = some v

/-- C6 no-conflict hypothesis as the spec words it: no identity present in
    both mappings carries conflicting non-unset values. -/
def noConflictB (A B : PyDict Str) : Bool :=
  A.all (fun kv =>
    match dget B kv.1 with
    | none => true
    | some vb => (kv.2 == strOf "Unknown") || (vb == strOf "Unknown") || (kv.2 == vb))

/-- C6 as stated: merge order is irrelevant under the no-conflict
    hypothesis. -/
def mergeOrderIndependent : Prop :=
  ∀ (A B : PyDict Str), nodupKeysB A = true → nodupKeysB B = true →
    noConflictB A B = true →
    ∀ k, dget (dupdate A B) k = dget (dupdate B A) k

/-- The amended C6 hypothesis: every identity present in both mappings
    carries equal values. -/
def noDiffB (A B : PyDict Str) : Bool :=
  A.all (fun kv =>
    match dget B kv.1 with
    | none => true
    | some vb => kv.2 == vb)

/-- C3 as stated: every probe failure leaves an observable diagnostic in
    the printed trail (the diagnostics the code does print all contain the
    word failed). -/
def failureDiagnosed (probe : ProbeOutcome → Except PyExn (PyDict Str × List Str)) : Prop :=
  ∀ o e, subprocessRun o = .error e →
    ∃ msg, msg ∈ trailOf (probe o) ∧ containsSub msg (strOf "failed") = true

/-- C7 as stated: any listening-socket line showing local address
    0.0.0.0:8080 in LISTEN state parses to the record keyed TCP:8080 with
    protocol TCP, port 8080, address 0.0.0.0 and state LISTENING. -/
def listenRecordClaim : Prop :=
  ∀ line : Str,
    containsSub line (strOf "0.0.0.0:8080") = true →
    containsSub line (strOf "LISTEN") = true →
    ∃ r : PortListener.PortRec,
      dget (PortListener.parseNetstatLinux line) (strOf "TCP:8080") = some r ∧
      r.protocol = strOf "TCP" ∧ r.port = JVal.num 8080 ∧
      r.addr = JVal.str (strOf "0.0.0.0") ∧ r.state = strOf "LISTENING"

/-- C8 as stated: a bare JSON object parses to exactly one record, an
    array of n objects to n records. -/
def jsonShapeClaim : Prop :=
  (∀ kvs : List (Str × JVal), dlen (PortListener.tcpListenersOf (.obj kvs)) = 1) ∧
  (∀ xs : List JVal, (∀ x ∈ xs, ∃ kvs, x = JVal.obj kvs) →
    dlen (PortListener.tcpListenersOf (.arr xs)) = xs.length)

/-- The TCP:port identity a PowerShell connection object would be stored
    under, when it has a truthy LocalPort. -/
def connKey : JVal → Option Str
  | .obj kvs =>
    let port := jget kvs (strOf "LocalPort") .null
    if jTruthy port then some (strOf "TCP:" ++ jFmt port) else none
  | _ => none

def listNodupB : List Str → Bool
  | [] => true
  | x :: rest => decide (x ∉ rest) && listNodupB rest

def osSupported : OSName → Bool
  | .other _ => false
  | _ => true

/-- The printed trail the package-manager loop leaves for a list of
    attempted entries that did not break the loop: a trying banner per
    entry, plus a failure diagnostic when the probe raised. -/
def pmAttemptTrail (envpm : SwLinux.PM → ProbeOutcome) : List SwLinux.PM → List Str
  | [] => []
  | q :: qs =>
    (match subprocessRun (envpm q) with
     | .error e => [SwLinux.msgTrying q, SwLinux.msgFailed q e]
     | .ok _ => [SwLinux.msgTrying q]) ++ pmAttemptTrail envpm qs

/-- A concrete Linux environment in which the three additive probes all
    succeed with one package each. -/
def envAdditive : SwLinux.Env where
  pm := fun _ => .toolAbsent
  snap := .ran 0 (strOf "Name Version\ncore 16")
  flatpak := .ran 0 (strOf "fp\t1.0")
  pip := .ran 0 (strOf "Package Version\n------- -------\nrequests 2.0")

/-- A concrete Linux environment in which dpkg is absent and rpm exits 0,
    so the package-manager chain stops at rpm. -/
def envChain : SwLinux.Env where
  pm := fun q => match q with
    | .dpkg => .toolAbsent
    | .rpm => .ran 0 (strOf "")
    | _ => .toolAbsent
  snap := .toolAbsent
  flatpak := .toolAbsent
  pip := .toolAbsent

/-! Helper lemmas about the dictionary model and the string helpers. -/

theorem dget_dset {α : Type} (d : PyDict α) (k : Str) (v : α) (q : Str) :
    dget (dset d k v) q = if q = k then some v else dget d q := by
  induction d with
  | nil =>
    simp only [dset, dget]
    by_cases h : k = q
    · rw [if_pos h, if_pos h.symm]
    · rw [if_neg h, if_neg (fun hh : q = k => h hh.symm)]
  | cons kv rest ih =>
    obtain ⟨k0, v0⟩ := kv
    by_cases h0 : k0 = k
    · simp only [dset, if_pos h0, dget]
      by_cases h1 : k0 = q
      · have hqk : q = k := by rw [← h1, h0]
        rw [if_pos h1, if_pos hqk]
      · have hqk : ¬ q = k := by
          intro hh
          exact h1 (by rw [h0, hh])
        rw [if_neg h1, if_neg hqk, if_neg h1]
    · simp only [dset, if_neg h0, dget]
      by_cases h1 : k0 = q
      · have hqk : ¬ q = k := by
          intro hh
          exact h0 (by rw [h1, hh])
        rw [if_pos h1, if_neg hqk, if_pos h1]
      · rw [if_neg h1, ih, if_neg h1]

theorem dget_dset_self {α : Type} (d : PyDict α) (k : Str) (v : α) :
    dget (dset d k v) k = some v := by
  simp [dget_dset]

theorem dget_dset_ne {α : Type} (d : PyDict α) (k : Str) (v : α) (q : Str) (h : q ≠ k) :
    dget (dset d k v) q = dget d q := by
  simp [dget_dset, h]

theorem dupdate_nil {α : Type} (d : PyDict α) : dupdate d [] = d := rfl

theorem dupdate_cons {α : Type} (d : PyDict α) (k : Str) (v : α) (rest : PyDict α) :
    dupdate d ((k, v) :: rest) = dupdate (dset d k v) rest := rfl

theorem dget_dupdate_none {α : Type} (d e : PyDict α) (q : Str) (h : dget e q = none) :
    dget (dupdate d e) q = dget d q := by
  induction e generalizing d with
  | nil => rfl
  | cons kv rest ih =>
    obtain ⟨k, v⟩ := kv
    by_cases hk : k = q
    · subst hk; simp [dget] at h
    · simp only [dget, hk, if_false] at h
      rw [dupdate_cons, ih _ h, dget_dset_ne _ _ _ _ (fun hh => hk hh.symm)]

theorem dget_dupdate_some {α : Type} (d e : PyDict α) (q : Str) (v : α)
    (he : nodupKeysB e = true) (h : dget e q = some v) :
    dget (dupdate d e) q = some v := by
  induction e generalizing d with
  | nil => simp [dget] at h
  | cons kv rest ih =>
    obtain ⟨k, w⟩ := kv
    simp only [nodupKeysB, Bool.and_eq_true, Option.isNone_iff_eq_none] at he
    obtain ⟨hknone, hrest⟩ := he
    rw [dupdate_cons]
    by_cases hk : k = q
    · subst hk
      simp [dget] at h
      subst h
      rw [dget_dupdate_none _ _ _ hknone]
      exact dget_dset_self _ _ _
    · simp only [dget, hk, if_false] at h
      exact ih _ hrest h

theorem nodupKeysB_dset {α : Type} (d : PyDict α) (k : Str) (v : α)
    (h : nodupKeysB d = true) : nodupKeysB (dset d k v) = true := by
  induction d with
  | nil => simp [dset, nodupKeysB, dget]
  | cons kv rest ih =>
    obtain ⟨k0, v0⟩ := kv
    simp only [nodupKeysB, Bool.and_eq_true] at h
    obtain ⟨h1, h2⟩ := h
    by_cases h0 : k0 = k
    · subst h0
      simp only [dset, if_pos rfl, nodupKeysB, Bool.and_eq_true]
      exact ⟨h1, h2⟩
    · simp only [dset, h0, if_false, nodupKeysB, Bool.and_eq_true]
      refine ⟨?_, ih h2⟩
      rw [dget_dset_ne _ _ _ _ h0]
      exact h1

theorem dlen_dset_new {α : Type} (d : PyDict α) (k : Str) (v : α)
    (h : dget d k = none) : dlen (dset d k v) = dlen d + 1 := by
  induction d with
  | nil => rfl
  | cons kv rest ih =>
    obtain ⟨k0, v0⟩ := kv
    by_cases h0 : k0 = k
    · subst h0; simp [dget] at h
    · simp only [dget, h0, if_false] at h
      have := ih h
      simp only [dlen, List.length_cons] at this ⊢
      simp only [dset, h0, if_false, List.length_cons]
      omega

theorem mem_dset {α : Type} (d : PyDict α) (k : Str) (v : α) :
    ∀ x ∈ dset d k v, x ∈ d ∨ x = (k, v) := by
  induction d with
  | nil =>
    intro x hx
    simp [dset] at hx
    right
    exact hx
  | cons kv rest ih =>
    obtain ⟨k0, v0⟩ := kv
    intro x hx
    by_cases h0 : k0 = k
    · simp only [dset, if_pos h0] at hx
      rcases List.mem_cons.mp hx with h | h
      · right; rw [h, h0]
      · left; exact List.mem_cons_of_mem _ h
    · simp only [dset, h0, if_false] at hx
      rcases List.mem_cons.mp hx with h | h
      · left; rw [h]; exact List.mem_cons_self _ _
      · rcases ih x h with h2 | h2
        · left; exact List.mem_cons_of_mem _ h2
        · right; exact h2

theorem dget_none_of_all {α : Type} (d : PyDict α) (P : Str → Bool)
    (hall : ∀ x ∈ d, P x.1 = true) (q : Str) (hq : P q = false) :
    dget d q = none := by
  induction d with
  | nil => rfl
  | cons kv rest ih =>
    obtain ⟨k, v⟩ := kv
    by_cases hk : k = q
    · subst hk
      have hh := hall (k, v) (List.mem_cons_self _ _)
      simp only at hh
      rw [hh] at hq
      exact absurd hq (by simp)
    · simp only [dget, hk, if_false]
      exact ih (fun x hx => hall x (List.mem_cons_of_mem _ hx))

theorem strStartsWith_head (s : Str) (c : Char) (p : Str)
    (h : strStartsWith s (c :: p) = true) : s.head? = some c := by
  cases s with
  | nil => simp [strStartsWith] at h
  | cons a t =>
    simp only [strStartsWith, Bool.and_eq_true, decide_eq_true_eq] at h
    simp [h.1]

theorem strStartsWith_append (p x : Str) : strStartsWith (p ++ x) p = true := by
  induction p with
  | nil => cases x <;> rfl
  | cons c rest ih => simp [strStartsWith, ih]

theorem strStartsWith_of_append (s b p : Str) (h : strStartsWith s p = true) :
    strStartsWith (s ++ b) p = true := by
  induction p generalizing s with
  | nil => cases s ++ b <;> rfl
  | cons c ps ih =>
    cases s with
    | nil => simp [strStartsWith] at h
    | cons a t =>
      simp only [strStartsWith, Bool.and_eq_true, decide_eq_true_eq] at h ⊢
      exact ⟨h.1, ih t h.2⟩

theorem findSubGo_append (pat a b : Str) (i : Nat)
    (h : (findSubGo pat a i).isSome = true) :
    (findSubGo pat (a ++ b) i).isSome = true := by
  induction a generalizing i with
  | nil =>
    simp only [findSubGo] at h
    by_cases hp : pat = []
    · subst hp
      cases b with
      | nil => simp [findSubGo]
      | cons c rest => simp [findSubGo, strStartsWith]
    · rw [if_neg hp] at h
      simp at h
  | cons c rest ih =>
    simp only [List.cons_append, findSubGo, List.append_eq] at h ⊢
    by_cases hsw : strStartsWith (c :: (rest ++ b)) pat = true
    · rw [if_pos hsw]
      rfl
    · have hsw0 : strStartsWith (c :: rest) pat = false := by
        cases h0 : strStartsWith (c :: rest) pat
        · rfl
        · have h1 := strStartsWith_of_append (c :: rest) b pat h0
          simp only [List.cons_append] at h1
          exact absurd h1 hsw
      rw [hsw0] at h
      simp only [Bool.false_eq_true, if_false] at h
      rw [if_neg hsw]
      exact ih _ h

theorem containsSub_append_left (a b pat : Str) (h : containsSub a pat = true) :
    containsSub (a ++ b) pat = true := by
  unfold containsSub findSub at h ⊢
  exact findSubGo_append pat a b 0 h

/-! Fold invariants for the line-oriented parsers. -/

def stepDsets (step : PyDict Str → Str → PyDict Str) (P : Str → Bool) : Prop :=
  ∀ d line, step d line = d ∨ ∃ k v, P k = true ∧ step d line = dset d k v

theorem foldl_nodup_prefix (step : PyDict Str → Str → PyDict Str) (P : Str → Bool)
    (hs : stepDsets step P) (lines : List Str) (d : PyDict Str)
    (hd : nodupKeysB d = true) (hk : ∀ x ∈ d, P x.1 = true) :
    nodupKeysB (lines.foldl step d) = true ∧
      ∀ x ∈ lines.foldl step d, P x.1 = true := by
  induction lines generalizing d with
  | nil => exact ⟨hd, hk⟩
  | cons l rest ih =>
    simp only [List.foldl]
    rcases hs d l with h | ⟨k, v, hPk, h⟩
    · rw [h]; exact ih d hd hk
    · rw [h]
      refine ih _ (nodupKeysB_dset _ _ _ hd) ?_
      intro x hx
      rcases mem_dset d k v x hx with h2 | h2
      · exact hk x h2
      · rw [h2]; exact hPk

theorem foldl_dget_pres {β : Type} (step : PyDict Str → β → PyDict Str)
    (hstep : ∀ d x k v, dget d k = some v → dget (step d x) k = some v)
    (l : List β) (d : PyDict Str) (k : Str) (v : Str) (h : dget d k = some v) :
    dget (l.foldl step d) k = some v := by
  induction l generalizing d with
  | nil => exact h
  | cons x rest ih => exact ih _ (hstep d x k v h)

/-! No collector ever stores the error key: lemmas feeding C4. -/

theorem dget_err_guard {α : Type} (d : PyDict α) (k : Str) (v : α)
    (hne : strOf "error" ≠ k) (h : dget d (strOf "error") = none) :
    dget (dset d k v) (strOf "error") = none := by
  rw [dget_dset_ne _ _ _ _ hne]
  exact h

theorem dget_err_nil {α : Type} : dget ([] : PyDict α) (strOf "error") = none := rfl

theorem dget_err_ite {α : Type} (c : Prop) [Decidable c] (a b : PyDict α)
    (ha : dget a (strOf "error") = none) (hb : dget b (strOf "error") = none) :
    dget (if c then a else b) (strOf "error") = none := by
  split <;> assumption

theorem linux_ports_no_error_key (env : PortListener.LinuxPortsEnv)
    (r : PyDict PortListener.PortVal)
    (hr : PortListener.get_linux_ports env = .ok r) :
    dget r (strOf "error") = none := by
  unfold PortListener.get_linux_ports at hr
  injection hr with hb
  subst hb
  rcases subprocessRun env.netstat with e | ⟨rc, out⟩ <;>
    rcases subprocessRun env.ss with e2 | ⟨rc2, out2⟩ <;>
    dsimp only <;>
    repeat' first
      | exact dget_err_nil
      | apply dget_err_guard _ _ _ (by decide)
      | apply dget_err_ite

theorem winPortsM1_no_error_key (o : ProbeOutcome) :
    dget (PortListener.winPortsM1 o) (strOf "error") = none := by
  unfold PortListener.winPortsM1
  rcases subprocessRun o with e | ⟨rc, out⟩ <;>
    dsimp only <;>
    repeat' first
      | exact dget_err_nil
      | apply dget_err_guard _ _ _ (by decide)
      | apply dget_err_ite

theorem winPortsM2_no_error_key (taskEnv : Str → ProbeOutcome)
    (pi0 : PyDict PortListener.PortVal) (h : dget pi0 (strOf "error") = none) :
    dget (PortListener.winPortsM2 taskEnv pi0) (strOf "error") = none := by
  unfold PortListener.winPortsM2
  rcases hm : dget pi0 (strOf "Listening Ports") with _ | pv
  · exact h
  · cases pv with
    | recs lp => exact dget_err_guard _ _ _ (by decide) h
    | msg m => exact h

theorem winPortsM3_no_error_key (loads : Str → Except PyExn JVal) (o : ProbeOutcome)
    (pi1 : PyDict PortListener.PortVal) (h : dget pi1 (strOf "error") = none) :
    dget (PortListener.winPortsM3 loads o pi1) (strOf "error") = none := by
  unfold PortListener.winPortsM3
  rcases subprocessRun o with e | ⟨rc, out⟩
  · exact h
  · dsimp only
    split
    · rcases loads out with e2 | data
      · exact h
      · dsimp only
        split
        · exact dget_err_guard _ _ _ (by decide) h
        · exact h
    · exact h

theorem win_ports_no_error_key (loads : Str → Except PyExn JVal)
    (env : PortListener.WinPortsEnv) (r : PyDict PortListener.PortVal)
    (hr : PortListener.get_windows_ports loads env = .ok r) :
    dget r (strOf "error") = none := by
  unfold PortListener.get_windows_ports at hr
  injection hr with hb
  subst hb
  exact winPortsM3_no_error_key _ _ _
    (winPortsM2_no_error_key _ _ (winPortsM1_no_error_key _))

theorem mac_ports_no_error_key (env : PortListener.MacPortsEnv)
    (r : PyDict PortListener.PortVal)
    (hr : PortListener.get_macos_ports env = .ok r) :
    dget r (strOf "error") = none := by
  unfold PortListener.get_macos_ports at hr
  injection hr with hb
  subst hb
  rcases subprocessRun env.netstat with e | ⟨rc, out⟩ <;>
    rcases subprocessRun env.lsof with e2 | ⟨rc2, out2⟩ <;>
    dsimp only <;>
    repeat' first
      | exact dget_err_nil
      | apply dget_err_guard _ _ _ (by decide)
      | apply dget_err_ite

theorem jsonGate_no_error_key (loads : Str → Except PyExn JVal) (o : ProbeOutcome)
    (handle : PyDict Firmware.FirmVal → JVal → PyDict Firmware.FirmVal)
    (fi : PyDict Firmware.FirmVal)
    (hh : ∀ fi2 data, dget fi2 (strOf "error") = none →
      dget (handle fi2 data) (strOf "error") = none)
    (h : dget fi (strOf "error") = none) :
    dget (Firmware.jsonGate loads o handle fi) (strOf "error") = none := by
  unfold Firmware.jsonGate
  rcases subprocessRun o with e | ⟨rc, out⟩
  · exact h
  · dsimp only
    split
    · rcases loads out with e2 | data
      · exact h
      · exact hh fi data h
    · exact h

theorem jsonGateMac_no_error_key (loads : Str → Except PyExn JVal) (o : ProbeOutcome)
    (handle : PyDict Firmware.FirmVal → JVal → PyDict Firmware.FirmVal)
    (fi : PyDict Firmware.FirmVal)
    (hh : ∀ fi2 data, dget fi2 (strOf "error") = none →
      dget (handle fi2 data) (strOf "error") = none)
    (h : dget fi (strOf "error") = none) :
    dget (Firmware.jsonGateMac loads o handle fi) (strOf "error") = none := by
  unfold Firmware.jsonGateMac
  rcases subprocessRun o with e | ⟨rc, out⟩
  · exact h
  · dsimp only
    split
    · rcases loads out with e2 | data
      · exact h
      · exact hh fi data h
    · exact h

theorem winBiosHandle_no_error_key (fi : PyDict Firmware.FirmVal) (data : JVal)
    (h : dget fi (strOf "error") = none) :
    dget (Firmware.winBiosHandle fi data) (strOf "error") = none := by
  unfold Firmware.winBiosHandle
  cases data <;> first
    | exact h
    | exact dget_err_guard _ _ _ (by decide) h

theorem winBoardHandle_no_error_key (fi : PyDict Firmware.FirmVal) (data : JVal)
    (h : dget fi (strOf "error") = none) :
    dget (Firmware.winBoardHandle fi data) (strOf "error") = none := by
  unfold Firmware.winBoardHandle
  cases data <;> first
    | exact h
    | exact dget_err_guard _ _ _ (by decide) h

theorem winDevicesHandle_no_error_key (nameKey : Str) (fallbackIdx : Nat → Str)
    (fallbackOne : Str) (fields : List (Str × JVal) → PyDict JVal) (category : Str)
    (hcat : strOf "error" ≠ category) (fi : PyDict Firmware.FirmVal) (data : JVal)
    (h : dget fi (strOf "error") = none) :
    dget (Firmware.winDevicesHandle nameKey fallbackIdx fallbackOne fields category fi data)
      (strOf "error") = none := by
  unfold Firmware.winDevicesHandle
  dsimp only
  split
  · exact dget_err_guard _ _ _ hcat h
  · exact h

theorem macHwHandle_no_error_key (fi : PyDict Firmware.FirmVal) (data : JVal)
    (h : dget fi (strOf "error") = none) :
    dget (Firmware.macHwHandle fi data) (strOf "error") = none := by
  unfold Firmware.macHwHandle
  cases data with
  | obj kvs =>
    dsimp only
    cases hj : jget kvs (strOf "SPHardwareDataType") (.arr []) with
    | null => exact h
    | bool b => exact h
    | num n => exact h
    | str s => exact h
    | obj kvs2 => exact h
    | arr xs =>
      cases xs with
      | nil => exact h
      | cons hw t =>
        cases hw <;> first
          | exact h
          | exact dget_err_guard _ _ _ (by decide) h
  | null => exact h
  | bool b => exact h
  | num n => exact h
  | str s => exact h
  | arr xs => exact h

theorem macStorageHandle_no_error_key (fi : PyDict Firmware.FirmVal) (data : JVal)
    (h : dget fi (strOf "error") = none) :
    dget (Firmware.macStorageHandle fi data) (strOf "error") = none := by
  unfold Firmware.macStorageHandle
  cases data with
  | obj kvs =>
    dsimp only
    cases hj : jget kvs (strOf "SPStorageDataType") (.arr []) with
    | null => exact h
    | bool b => exact h
    | num n => exact h
    | str s => exact h
    | obj kvs2 => exact h
    | arr xs =>
      dsimp only
      split
      · split
        · exact dget_err_guard _ _ _ (by decide) h
        · exact h
      · exact h
  | null => exact h
  | bool b => exact h
  | num n => exact h
  | str s => exact h
  | arr xs => exact h

theorem win_firmware_no_error_key (loads : Str → Except PyExn JVal)
    (env : Firmware.WinFirmEnv) (r : PyDict Firmware.FirmVal)
    (hr : Firmware.get_windows_firmware loads env = .ok r) :
    dget r (strOf "error") = none := by
  unfold Firmware.get_windows_firmware at hr
  injection hr with hb
  subst hb
  apply jsonGate_no_error_key
  · intro fi2 data h2
    apply winDevicesHandle_no_error_key
    · decide
    · exact h2
  apply jsonGate_no_error_key
  · intro fi2 data h2
    apply winDevicesHandle_no_error_key
    · decide
    · exact h2
  apply jsonGate_no_error_key
  · intro fi2 data h2
    apply winDevicesHandle_no_error_key
    · decide
    · exact h2
  apply jsonGate_no_error_key
  · intro fi2 data h2
    exact winBoardHandle_no_error_key _ _ h2
  apply jsonGate_no_error_key
  · intro fi2 data h2
    exact winBiosHandle_no_error_key _ _ h2
  exact dget_err_nil

theorem linux_firmware_no_error_key (env : Firmware.LinFirmEnv)
    (r : PyDict Firmware.FirmVal)
    (hr : Firmware.get_linux_firmware env = .ok r) :
    dget r (strOf "error") = none := by
  unfold Firmware.get_linux_firmware at hr
  injection hr with hb
  subst hb
  rcases subprocessRun env.dmi with e1 | ⟨rc1, out1⟩ <;>
    rcases subprocessRun env.lspci with e2 | ⟨rc2, out2⟩ <;>
    rcases subprocessRun env.lsblk with e3 | ⟨rc3, out3⟩ <;>
    dsimp only <;>
    repeat' first
      | exact dget_err_nil
      | apply dget_err_guard _ _ _ (by decide)
      | apply dget_err_ite

theorem mac_firmware_no_error_key (loads : Str → Except PyExn JVal)
    (env : Firmware.MacFirmEnv) (r : PyDict Firmware.FirmVal)
    (hr : Firmware.get_macos_firmware loads env = .ok r) :
    dget r (strOf "error") = none := by
  unfold Firmware.get_macos_firmware at hr
  injection hr with hb
  subst hb
  apply jsonGateMac_no_error_key
  · intro fi2 data h2
    exact macStorageHandle_no_error_key _ _ h2
  apply jsonGateMac_no_error_key
  · intro fi2 data h2
    exact macHwHandle_no_error_key _ _ h2
  exact dget_err_nil

/-- C2: for every failure mode of an external tool probe (missing
    executable, timeout, any exit status, malformed or undecodable output,
    any behaviour of json.loads), each domain collector on each supported
    platform returns a dictionary normally: no exception escapes to the
    caller. -/
theorem C2_failures_never_escape :
    ∀ (loads : Str → Except PyExn JVal)
      (envWS : SwWindows.Env) (envLS : SwLinux.Env) (envMS : SwMacos.Env)
      (envWP : PortListener.WinPortsEnv) (envLP : PortListener.LinuxPortsEnv)
      (envMP : PortListener.MacPortsEnv)
      (envWF : Firmware.WinFirmEnv) (envLF : Firmware.LinFirmEnv)
      (envMF : Firmware.MacFirmEnv),
    (∃ r, SwReader.get_installed_software .windows loads envWS envLS envMS = .ok r) ∧
    (∃ r, SwReader.get_installed_software .linux loads envWS envLS envMS = .ok r) ∧
    (∃ r, SwReader.get_installed_software .darwin loads envWS envLS envMS = .ok r) ∧
    (∃ r, PortListener.get_listening_ports .windows loads envWP envLP envMP = .ok r) ∧
    (∃ r, PortListener.get_listening_ports .linux loads envWP envLP envMP = .ok r) ∧
    (∃ r, PortListener.get_listening_ports .darwin loads envWP envLP envMP = .ok r) ∧
    (∃ r, Firmware.get_firmware_info .windows loads envWF envLF envMF = .ok r) ∧
    (∃ r, Firmware.get_firmware_info .linux loads envWF envLF envMF = .ok r) ∧
    (∃ r, Firmware.get_firmware_info .darwin loads envWF envLF envMF = .ok r) := by
  intro loads envWS envLS envMS envWP envLP envMP envWF envLF envMF
  exact ⟨⟨_, rfl⟩, ⟨_, rfl⟩, ⟨_, rfl⟩, ⟨_, rfl⟩, ⟨_, rfl⟩, ⟨_, rfl⟩,
    ⟨_, rfl⟩, ⟨_, rfl⟩, ⟨_, rfl⟩⟩

/-- C4: on every operating system other than windows, linux and darwin the
    software entry point raises the single OSError, the ports and firmware
    entry points return the single-entry error dictionary, and this is the
    only fatal condition: on a supported platform every entry point
    returns normally and its dictionary never carries the error key. -/
theorem C4_unsupported_platform_single_error (s : Str) (os : OSName)
    (hos : osSupported os = true)
    (loads : Str → Except PyExn JVal)
    (envWS : SwWindows.Env) (envLS : SwLinux.Env) (envMS : SwMacos.Env)
    (envWP : PortListener.WinPortsEnv) (envLP : PortListener.LinuxPortsEnv)
    (envMP : PortListener.MacPortsEnv)
    (envWF : Firmware.WinFirmEnv) (envLF : Firmware.LinFirmEnv)
    (envMF : Firmware.MacFirmEnv) :
    (SwReader.get_installed_software (.other s) loads envWS envLS envMS =
      .error (.osError (strOf "Unsupported operating system: " ++ s))) ∧
    (PortListener.get_listening_ports (.other s) loads envWP envLP envMP =
      .ok [(strOf "error", .msg (strOf "Unsupported operating system: " ++ s))]) ∧
    (Firmware.get_firmware_info (.other s) loads envWF envLF envMF =
      .ok [(strOf "error", .msg (strOf "Unsupported operating system: " ++ s))]) ∧
    (∃ r, SwReader.get_installed_software os loads envWS envLS envMS = .ok r) ∧
    (∃ d, PortListener.get_listening_ports os loads envWP envLP envMP = .ok d ∧
      dget d (strOf "error") = none) ∧
    (∃ d, Firmware.get_firmware_info os loads envWF envLF envMF = .ok d ∧
      dget d (strOf "error") = none) := by
  refine ⟨rfl, rfl, rfl, ?_, ?_, ?_⟩
  · cases os with
    | windows => exact ⟨_, rfl⟩
    | linux => exact ⟨_, rfl⟩
    | darwin => exact ⟨_, rfl⟩
    | other s2 => simp [osSupported] at hos
  · cases os with
    | windows => exact ⟨_, rfl, win_ports_no_error_key loads envWP _ rfl⟩
    | linux => exact ⟨_, rfl, linux_ports_no_error_key envLP _ rfl⟩
    | darwin => exact ⟨_, rfl, mac_ports_no_error_key envMP _ rfl⟩
    | other s2 => simp [osSupported] at hos
  · cases os with
    | windows => exact ⟨_, rfl, win_firmware_no_error_key loads envWF _ rfl⟩
    | linux => exact ⟨_, rfl, linux_firmware_no_error_key envLF _ rfl⟩
    | darwin => exact ⟨_, rfl, mac_firmware_no_error_key loads envMF _ rfl⟩
    | other s2 => simp [osSupported] at hos

/-- Witness for C4 at a concrete unsupported name and a concrete supported
    platform with every probe absent. -/
theorem C4_witness :
    osSupported OSName.linux = true ∧
    PortListener.get_listening_ports (.other (strOf "sunos"))
        (fun _ => .error .jsonDecodeError)
        { netstat := .toolAbsent, tasklist := fun _ => .toolAbsent, ps := .toolAbsent }
        { netstat := .toolAbsent, ss := .toolAbsent }
        { netstat := .toolAbsent, lsof := .toolAbsent } =
      .ok [(strOf "error", .msg (strOf "Unsupported operating system: " ++ strOf "sunos"))] :=
  ⟨by decide,
    (C4_unsupported_platform_single_error (strOf "sunos") OSName.linux (by decide)
      (fun _ => .error .jsonDecodeError)
      { wmic := .toolAbsent, reg := fun _ => .toolAbsent, getpkg := .toolAbsent
      , appx := .toolAbsent, pip := .toolAbsent }
      { pm := fun _ => .toolAbsent, snap := .toolAbsent, flatpak := .toolAbsent
      , pip := .toolAbsent }
      { profiler := .toolAbsent, brew := .toolAbsent, cask := .toolAbsent
      , port := .toolAbsent, mas := .toolAbsent, pip := .toolAbsent }
      { netstat := .toolAbsent, tasklist := fun _ => .toolAbsent, ps := .toolAbsent }
      { netstat := .toolAbsent, ss := .toolAbsent }
      { netstat := .toolAbsent, lsof := .toolAbsent }
      { bios := .toolAbsent, board := .toolAbsent, net := .toolAbsent
      , disk := .toolAbsent, video := .toolAbsent }
      { dmi := .toolAbsent, lspci := .toolAbsent, lsblk := .toolAbsent }
      { hw := .toolAbsent, storage := .toolAbsent }).2.1⟩

theorem dget_mem {α : Type} (d : PyDict α) (k : Str) (v : α)
    (h : dget d k = some v) : (k, v) ∈ d := by
  induction d with
  | nil => simp [dget] at h
  | cons kv rest ih =>
    obtain ⟨k0, v0⟩ := kv
    by_cases h0 : k0 = k
    · subst h0
      simp [dget] at h
      subst h
      exact List.mem_cons_self _ _
    · simp only [dget, h0, if_false] at h
      exact List.mem_cons_of_mem _ (ih h)

/-- C1 counterexample: on the Windows chain the wmic probe (first) resolves
    the identity to 1.0, the later pip probe resolves it to 2.0, and the
    merged mapping keeps 2.0, so the first-writer-wins statement is false;
    the generic first-writer-wins property of the merge operator fails as
    well. -/
theorem C1_counterexample :
    dget (dictOf (SwWindows.get_windows_software (fun _ => .error .jsonDecodeError)
        { wmic := .ran 0 (strOf "Node,Name,Version\nX,Python: requests,1.0")
        , reg := fun _ => .toolAbsent, getpkg := .toolAbsent, appx := .toolAbsent
        , pip := .ran 0 (strOf "Package Version\n--------- -------\nrequests 2.0") }))
      (strOf "Python: requests") = some (strOf "1.0") ∧
    dget (dictOf (SwWindows.get_installed_software (fun _ => .error .jsonDecodeError)
        { wmic := .ran 0 (strOf "Node,Name,Version\nX,Python: requests,1.0")
        , reg := fun _ => .toolAbsent, getpkg := .toolAbsent, appx := .toolAbsent
        , pip := .ran 0 (strOf "Package Version\n--------- -------\nrequests 2.0") }))
      (strOf "Python: requests") = some (strOf "2.0") ∧
    ¬ firstWriterWinsMerge := by
  refine ⟨by decide, by decide, ?_⟩
  intro h
  have h2 := h [(strOf "curl", strOf "1.0")] [(strOf "curl", strOf "2.0")]
    (strOf "curl") (strOf "1.0") (by decide) (by decide) (by decide) (by decide)
  exact absurd h2 (by decide)

/-- C1 corrected: the merge used by every collector (dict.update) is
    last-writer-wins: the later mapping wins on every identity it carries,
    whether or not the earlier value was unset, and the earlier mapping
    only survives on identities the later one lacks.  Unset-field backfill
    holds as the special case of the first conjunct. -/
theorem C1_amended (A B : PyDict Str) (k : Str) (hB : nodupKeysB B = true) :
    (∀ v, dget B k = some v → dget (dupdate A B) k = some v) ∧
    (dget B k = none → dget (dupdate A B) k = dget A k) :=
  ⟨fun v hv => dget_dupdate_some A B k v hB hv, fun hn => dget_dupdate_none A B k hn⟩

/-- Witness for C1 at the version conflict of the spec scenario: the later
    probe wins with 2.0. -/
theorem C1_witness :
    nodupKeysB [(strOf "curl", strOf "2.0")] = true ∧
    dget (dupdate [(strOf "curl", strOf "1.0")] [(strOf "curl", strOf "2.0")])
      (strOf "curl") = some (strOf "2.0") :=
  ⟨by decide, (C1_amended _ _ _ (by decide)).1 _ (by decide)⟩

/-- C6 counterexample: an unset value on one side is allowed by the
    no-conflict hypothesis of the claim, yet the two merge orders disagree
    (7.81 one way, Unknown the other), so order-independence fails. -/
theorem C6_counterexample :
    noConflictB [(strOf "curl", strOf "Unknown")] [(strOf "curl", strOf "7.81")] = true ∧
    dget (dupdate [(strOf "curl", strOf "Unknown")] [(strOf "curl", strOf "7.81")])
        (strOf "curl") ≠
      dget (dupdate [(strOf "curl", strOf "7.81")] [(strOf "curl", strOf "Unknown")])
        (strOf "curl") ∧
    ¬ mergeOrderIndependent := by
  refine ⟨by decide, by decide, ?_⟩
  intro h
  have h2 := h [(strOf "curl", strOf "Unknown")] [(strOf "curl", strOf "7.81")]
    (by decide) (by decide) (by decide) (strOf "curl")
  exact absurd h2 (by decide)

/-- C6 corrected: the merge orders agree exactly when every identity
    present in both mappings carries equal values in the two (unset values
    included); under that hypothesis dict.update commutes pointwise. -/
theorem C6_amended (A B : PyDict Str) (hA : nodupKeysB A = true)
    (hB : nodupKeysB B = true) (h : noDiffB A B = true) :
    ∀ k, dget (dupdate A B) k = dget (dupdate B A) k := by
  intro k
  cases hbk : dget B k with
  | some vb =>
    rw [dget_dupdate_some A B k vb hB hbk]
    cases hak : dget A k with
    | some va =>
      have hmem := dget_mem A k va hak
      have hall := List.all_eq_true.mp h _ hmem
      simp only [hbk] at hall
      simp only [beq_iff_eq] at hall
      rw [dget_dupdate_some B A k va hA hak, hall]
    | none =>
      rw [dget_dupdate_none B A k hak, hbk]
  | none =>
    rw [dget_dupdate_none A B k hbk]
    cases hak : dget A k with
    | some va => rw [dget_dupdate_some B A k va hA hak]
    | none => rw [dget_dupdate_none B A k hak, hbk]

/-- Witness for C6 on two disjoint mappings. -/
theorem C6_witness :
    noDiffB [(strOf "curl", strOf "7.81")] [(strOf "git", strOf "2.3")] = true ∧
    dget (dupdate [(strOf "curl", strOf "7.81")] [(strOf "git", strOf "2.3")])
        (strOf "curl") =
      dget (dupdate [(strOf "git", strOf "2.3")] [(strOf "curl", strOf "7.81")])
        (strOf "curl") :=
  ⟨by decide, C6_amended _ _ (by decide) (by decide) (by decide) _⟩

/-- C3 counterexample: a missing snap executable leaves the trail at
    exactly the scanning banner, indistinguishable from a quiet success,
    so no diagnostic records the failed probe. -/
theorem C3_counterexample :
    trailOf (SwLinux.get_snap_packages .toolAbsent) = [SwLinux.snapBanner] ∧
    ¬ failureDiagnosed SwLinux.get_snap_packages := by
  refine ⟨rfl, ?_⟩
  intro h
  obtain ⟨msg, hmem, hc⟩ := h .toolAbsent .fileNotFound rfl
  have hmsg : msg = SwLinux.snapBanner := by
    rw [show trailOf (SwLinux.get_snap_packages .toolAbsent) = [SwLinux.snapBanner] from rfl]
      at hmem
    simpa using hmem
  subst hmsg
  exact absurd hc (by decide)

/-- C3 corrected: the pip probe prints a failure diagnostic on every
    raising outcome, but the catch-and-ignore probes (snap, flatpak,
    homebrew, app store) record nothing beyond their scanning banner, so
    their failures are silently discarded. -/
theorem C3_amended (o o2 : ProbeOutcome) (e e2 : PyExn)
    (h : subprocessRun o = .error e) (h2 : subprocessRun o2 = .error e2) :
    (∃ msg, msg ∈ trailOf (get_python_packages o) ∧
      containsSub msg (strOf "failed") = true) ∧
    trailOf (SwLinux.get_snap_packages o2) = [SwLinux.snapBanner] ∧
    trailOf (SwLinux.get_flatpak_packages o2) = [SwLinux.flatpakBanner] ∧
    trailOf (SwMacos.get_homebrew_packages o2) = [SwMacos.brewBanner] ∧
    trailOf (SwMacos.get_app_store_apps o2) = [SwMacos.masBanner] := by
  refine ⟨⟨strOf "Python packages scan failed: " ++ exnStr e, ?_, ?_⟩, ?_, ?_, ?_, ?_⟩
  · simp [trailOf, get_python_packages, h]
  · exact containsSub_append_left _ _ _ (by decide)
  · simp [trailOf, SwLinux.get_snap_packages, h2]
  · simp [trailOf, SwLinux.get_flatpak_packages, h2]
  · simp [trailOf, SwMacos.get_homebrew_packages, h2]
  · simp [trailOf, SwMacos.get_app_store_apps, h2]

/-- Witness for C3 on the missing-executable outcome. -/
theorem C3_witness :
    subprocessRun ProbeOutcome.toolAbsent = .error .fileNotFound ∧
    trailOf (SwLinux.get_snap_packages .toolAbsent) = [SwLinux.snapBanner] :=
  ⟨rfl, (C3_amended .toolAbsent .toolAbsent .fileNotFound .fileNotFound rfl rfl).2.1⟩

theorem startsWith_false_of_head_ne (k : Str) (c1 c2 : Char) (p1 p2 : Str)
    (hne : c1 ≠ c2) (h1 : strStartsWith k (c1 :: p1) = true) :
    strStartsWith k (c2 :: p2) = false := by
  cases h2 : strStartsWith k (c2 :: p2)
  · rfl
  · have a1 := strStartsWith_head k c1 p1 h1
    have a2 := strStartsWith_head k c2 p2 h2
    rw [a1] at a2
    exact absurd (Option.some.inj a2) hne

theorem countKeys_partition (d : PyDict Str) :
    SwLinux.countKeys (fun k => strStartsWith k (strOf "Python:")) d
      + SwLinux.countKeys (fun k => strStartsWith k (strOf "Snap:")) d
      + SwLinux.countKeys (fun k => strStartsWith k (strOf "Flatpak:")) d
      + SwLinux.countKeys (fun k =>
          !(strStartsWith k (strOf "Python:") || strStartsWith k (strOf "Snap:")
            || strStartsWith k (strOf "Flatpak:"))) d
      = dlen d := by
  induction d with
  | nil => rfl
  | cons kv rest ih =>
    obtain ⟨k, v⟩ := kv
    by_cases hP : strStartsWith k (strOf "Python:") = true
    · have hS : strStartsWith k (strOf "Snap:") = false :=
        startsWith_false_of_head_ne k 'P' 'S' _ _ (by decide) hP
      have hF : strStartsWith k (strOf "Flatpak:") = false :=
        startsWith_false_of_head_ne k 'P' 'F' _ _ (by decide) hP
      simp [SwLinux.countKeys, List.filter_cons, hP, hS, hF, dlen] at ih ⊢
      omega
    · have hP2 : strStartsWith k (strOf "Python:") = false := by
        simpa using hP
      by_cases hS : strStartsWith k (strOf "Snap:") = true
      · have hF : strStartsWith k (strOf "Flatpak:") = false :=
          startsWith_false_of_head_ne k 'S' 'F' _ _ (by decide) hS
        simp [SwLinux.countKeys, List.filter_cons, hP2, hS, hF, dlen] at ih ⊢
        omega
      · have hS2 : strStartsWith k (strOf "Snap:") = false := by
          simpa using hS
        by_cases hF : strStartsWith k (strOf "Flatpak:") = true
        · simp [SwLinux.countKeys, List.filter_cons, hP2, hS2, hF, dlen] at ih ⊢
          omega
        · have hF2 : strStartsWith k (strOf "Flatpak:") = false := by
            simpa using hF
          simp [SwLinux.countKeys, List.filter_cons, hP2, hS2, hF2, dlen] at ih ⊢
          omega

/-- C9: the summary total equals the number of records, the per-category
    counts are the prefix classification counts and they partition the
    total; in particular a 10-record mapping with 6 Python-prefixed and 4
    plain identities summarises to 10 total, 6 and 4, with the remaining
    categories at 0.  The summary is computed by the pure
    software_summary_of applied to the merged mapping. -/
theorem C9_summary_counts (d : PyDict Str)
    (h1 : dlen d = 10)
    (h2 : (SwLinux.software_summary_of d).python_packages = 6)
    (h3 : (SwLinux.software_summary_of d).system_packages = 4) :
    (SwLinux.software_summary_of d).total_count = 10 ∧
    (SwLinux.software_summary_of d).snap_packages = 0 ∧
    (SwLinux.software_summary_of d).flatpak_packages = 0 ∧
    (SwLinux.software_summary_of d).python_packages +
      (SwLinux.software_summary_of d).snap_packages +
      (SwLinux.software_summary_of d).flatpak_packages +
      (SwLinux.software_summary_of d).system_packages =
      (SwLinux.software_summary_of d).total_count ∧
    (∀ env, SwLinux.get_software_summary env =
      .ok (SwLinux.software_summary_of (dictOf (SwLinux.get_installed_software env)))) := by
  have hpart := countKeys_partition d
  simp only [SwLinux.software_summary_of] at h2 h3 ⊢
  refine ⟨h1, ?_, ?_, ?_, fun env => rfl⟩ <;> omega

/-- Witness for C9 on a concrete ten-record mapping. -/
theorem C9_witness :
    dlen [(strOf "Python: a", strOf "1"), (strOf "Python: b", strOf "1"),
      (strOf "Python: c", strOf "1"), (strOf "Python: d", strOf "1"),
      (strOf "Python: e", strOf "1"), (strOf "Python: f", strOf "1"),
      (strOf "curl", strOf "1"), (strOf "git", strOf "1"),
      (strOf "bash", strOf "1"), (strOf "vim", strOf "1")] = 10 ∧
    (SwLinux.software_summary_of [(strOf "Python: a", strOf "1"), (strOf "Python: b", strOf "1"),
      (strOf "Python: c", strOf "1"), (strOf "Python: d", strOf "1"),
      (strOf "Python: e", strOf "1"), (strOf "Python: f", strOf "1"),
      (strOf "curl", strOf "1"), (strOf "git", strOf "1"),
      (strOf "bash", strOf "1"), (strOf "vim", strOf "1")]).total_count = 10 :=
  ⟨by decide,
    (C9_summary_counts _ (by decide) (by decide) (by decide)).1⟩

theorem dget_guarded_dset_pres (d : PyDict Str) (k2 v2 k v : Str)
    (hmem : dmem k2 d = false) (h : dget d k = some v) :
    dget (dset d k2 v2) k = some v := by
  have hne : k ≠ k2 := by
    intro he
    subst he
    unfold dmem at hmem
    rw [h] at hmem
    simp at hmem
  rw [dget_dset_ne _ _ _ _ hne]
  exact h

theorem regItemStep_pres (d : PyDict Str) (item : JVal) (k v : Str)
    (h : dget d k = some v) : dget (SwWindows.regItemStep d item) k = some v := by
  unfold SwWindows.regItemStep
  cases item with
  | obj kvs =>
    dsimp only
    cases jStrOpt (jget kvs (strOf "DisplayName") .null) with
    | none => exact h
    | some s =>
      dsimp only
      split
      · split
        next hg =>
          have hmem : dmem (pyStrip s) d = false := by
            have h2 := (Bool.and_eq_true _ _).mp hg
            simpa using h2.2
          exact dget_guarded_dset_pres _ _ _ _ _ hmem h
        next => exact h
      · exact h
  | null => exact h
  | bool b => exact h
  | num n => exact h
  | str s => exact h
  | arr xs => exact h

theorem pkgItemStep_pres (d : PyDict Str) (item : JVal) (k v : Str)
    (h : dget d k = some v) : dget (SwWindows.pkgItemStep d item) k = some v := by
  unfold SwWindows.pkgItemStep
  cases item with
  | obj kvs =>
    dsimp only
    cases jStrOpt (jget kvs (strOf "Name") .null) with
    | none => exact h
    | some s =>
      dsimp only
      split
      · split
        · split
          next hg => exact dget_guarded_dset_pres _ _ _ _ _ (by simpa using hg) h
          next => exact h
        · split
          next hg => exact dget_guarded_dset_pres _ _ _ _ _ (by simpa using hg) h
          next => exact h
      · exact h
  | null => exact h
  | bool b => exact h
  | num n => exact h
  | str s => exact h
  | arr xs => exact h

theorem appxItemStep_pres (d : PyDict Str) (item : JVal) (k v : Str)
    (h : dget d k = some v) : dget (SwWindows.appxItemStep d item) k = some v := by
  unfold SwWindows.appxItemStep
  cases item with
  | obj kvs =>
    dsimp only
    cases jStrOpt (jget kvs (strOf "Name") .null) with
    | none => exact h
    | some s =>
      dsimp only
      split
      · split
        next hg =>
          have hmem : dmem (strOf "Store: " ++ pyStrip s) d = false := by
            simpa using hg
          exact dget_guarded_dset_pres _ _ _ _ _ hmem h
        next => exact h
      · exact h
  | null => exact h
  | bool b => exact h
  | num n => exact h
  | str s => exact h
  | arr xs => exact h

theorem regDataStep_pres (d : PyDict Str) (data : JVal) (k v : Str)
    (h : dget d k = some v) : dget (SwWindows.regDataStep d data) k = some v := by
  unfold SwWindows.regDataStep
  cases data with
  | obj kvs => exact regItemStep_pres _ _ _ _ h
  | arr xs =>
    exact foldl_dget_pres _ (fun d2 x k2 v2 h2 => regItemStep_pres d2 x k2 v2 h2) xs d k v h
  | null => exact h
  | bool b => exact h
  | num n => exact h
  | str s => exact h

theorem pkgDataStep_pres (d : PyDict Str) (data : JVal) (k v : Str)
    (h : dget d k = some v) : dget (SwWindows.pkgDataStep d data) k = some v := by
  unfold SwWindows.pkgDataStep
  cases data with
  | obj kvs => exact pkgItemStep_pres _ _ _ _ h
  | arr xs =>
    exact foldl_dget_pres _ (fun d2 x k2 v2 h2 => pkgItemStep_pres d2 x k2 v2 h2) xs d k v h
  | null => exact h
  | bool b => exact h
  | num n => exact h
  | str s => exact h

theorem appxDataStep_pres (d : PyDict Str) (data : JVal) (k v : Str)
    (h : dget d k = some v) : dget (SwWindows.appxDataStep d data) k = some v := by
  unfold SwWindows.appxDataStep
  cases data with
  | obj kvs => exact appxItemStep_pres _ _ _ _ h
  | arr xs =>
    exact foldl_dget_pres _ (fun d2 x k2 v2 h2 => appxItemStep_pres d2 x k2 v2 h2) xs d k v h
  | null => exact h
  | bool b => exact h
  | num n => exact h
  | str s => exact h

theorem regPathStep_pres (loads : Str → Except PyExn JVal) (regEnv : SwWindows.RegPath → ProbeOutcome)
    (acc : PyDict Str × List Str) (p : SwWindows.RegPath) (k v : Str)
    (h : dget acc.1 k = some v) :
    dget (SwWindows.regPathStep loads regEnv acc p).1 k = some v := by
  unfold SwWindows.regPathStep
  rcases subprocessRun (regEnv p) with e | ⟨rc, out⟩
  · exact h
  · dsimp only
    split
    · rcases loads out with e2 | data
      · cases e2 <;> exact h
      · exact regDataStep_pres _ _ _ _ h
    · exact h

theorem regMethod_pres (loads : Str → Except PyExn JVal) (regEnv : SwWindows.RegPath → ProbeOutcome)
    (start : PyDict Str × List Str) (k v : Str) (h : dget start.1 k = some v) :
    dget (SwWindows.regMethod loads regEnv start).1 k = some v := by
  unfold SwWindows.regMethod SwWindows.regPaths
  simp only [List.foldl]
  exact regPathStep_pres _ _ _ _ _ _
    (regPathStep_pres _ _ _ _ _ _ (regPathStep_pres _ _ _ _ _ _ h))

theorem jsonMethod_pres (loads : Str → Except PyExn JVal) (o : ProbeOutcome)
    (step : PyDict Str → JVal → PyDict Str)
    (hstep : ∀ d data k v, dget d k = some v → dget (step d data) k = some v)
    (banner innerFail outerFail : Str) (acc : PyDict Str × List Str) (k v : Str)
    (h : dget acc.1 k = some v) :
    dget (SwWindows.jsonMethod loads o step banner innerFail outerFail acc).1 k = some v := by
  unfold SwWindows.jsonMethod
  rcases subprocessRun o with e | ⟨rc, out⟩
  · exact h
  · dsimp only
    split
    · rcases loads out with e2 | data
      · cases e2 <;> exact h
      · exact hstep _ _ _ _ h
    · exact h

/-- C10: once the wmic method has recorded a display name, the registry,
    PackageManagement and Windows Store methods never overwrite it — each
    inserts only names not already present — so the first recorded version
    survives to the end of get_windows_software. -/
theorem C10_earlier_methods_win (loads : Str → Except PyExn JVal)
    (env : SwWindows.Env) (k v : Str)
    (h : dget (SwWindows.wmicMethod env).1 k = some v) :
    dget (dictOf (SwWindows.get_windows_software loads env)) k = some v := by
  have h2 := regMethod_pres loads env.reg (SwWindows.wmicMethod env) k v h
  have h3 := jsonMethod_pres loads env.getpkg SwWindows.pkgDataStep
    (fun d data k2 v2 hh => pkgDataStep_pres d data k2 v2 hh)
    (strOf "Scanning via PackageManagement...")
    (strOf "PackageManagement JSON parsing failed: ")
    (strOf "PackageManagement method failed: ") _ k v h2
  have h4 := jsonMethod_pres loads env.appx SwWindows.appxDataStep
    (fun d data k2 v2 hh => appxDataStep_pres d data k2 v2 hh)
    (strOf "Scanning Windows Store apps...")
    (strOf "AppX JSON parsing failed: ")
    (strOf "AppX method failed: ") _ k v h3
  exact h4

/-- Witness for C10: wmic records version 1.0 for a name, the registry
    probe reports 2.0 for the same name, and the final mapping keeps
    1.0. -/
theorem C10_witness :
    dget (SwWindows.wmicMethod
        { wmic := .ran 0 (strOf "Node,Name,Version\nX,App,1.0")
        , reg := fun p => if p = .hklm then .ran 0 (strOf "j") else .toolAbsent
        , getpkg := .toolAbsent, appx := .toolAbsent, pip := .toolAbsent }).1
      (strOf "App") = some (strOf "1.0") ∧
    dget (dictOf (SwWindows.get_windows_software
        (fun _ => .ok (.obj [(strOf "DisplayName", .str (strOf "App")),
                             (strOf "DisplayVersion", .str (strOf "2.0"))]))
        { wmic := .ran 0 (strOf "Node,Name,Version\nX,App,1.0")
        , reg := fun p => if p = .hklm then .ran 0 (strOf "j") else .toolAbsent
        , getpkg := .toolAbsent, appx := .toolAbsent, pip := .toolAbsent }))
      (strOf "App") = some (strOf "1.0") :=
  ⟨by decide,
    C10_earlier_methods_win
      (fun _ => .ok (.obj [(strOf "DisplayName", .str (strOf "App")),
                           (strOf "DisplayVersion", .str (strOf "2.0"))]))
      { wmic := .ran 0 (strOf "Node,Name,Version\nX,App,1.0")
      , reg := fun p => if p = .hklm then .ran 0 (strOf "j") else .toolAbsent
      , getpkg := .toolAbsent, appx := .toolAbsent, pip := .toolAbsent }
      (strOf "App") (strOf "1.0") (by decide)⟩

theorem connStep_of_key (acc : PyDict PortListener.PortRec) (x : JVal) (kx : Str)
    (h : connKey x = some kx) :
    ∃ rec, PortListener.connStep acc x = dset acc kx rec := by
  cases x with
  | obj kvs =>
    simp only [connKey] at h
    by_cases ht : jTruthy (jget kvs (strOf "LocalPort") .null) = true
    · rw [if_pos ht] at h
      injection h with hkx
      subst hkx
      refine ⟨{ protocol := strOf "TCP", port := jget kvs (strOf "LocalPort") .null
              , addr := jget kvs (strOf "LocalAddress") (.str (strOf "0.0.0.0"))
              , state := strOf "LISTENING", pid := jget kvs (strOf "OwningProcess") .null
              , process := strOf "Unknown" }, ?_⟩
      simp only [PortListener.connStep]
      rw [if_pos ht]
    · rw [if_neg ht] at h
      exact absurd h (by simp)
  | null => simp [connKey] at h
  | bool b => simp [connKey] at h
  | num n => simp [connKey] at h
  | str s => simp [connKey] at h
  | arr xs => simp [connKey] at h

theorem connFold_len (xs : List JVal) (acc : PyDict PortListener.PortRec)
    (hall : ∀ x ∈ xs, (connKey x).isSome = true)
    (hnodup : listNodupB (xs.filterMap connKey) = true)
    (hdisj : ∀ k ∈ xs.filterMap connKey, dget acc k = none) :
    dlen (xs.foldl PortListener.connStep acc) = dlen acc + xs.length := by
  induction xs generalizing acc with
  | nil => simp [dlen]
  | cons x rest ih =>
    obtain ⟨kx, hkx⟩ := Option.isSome_iff_exists.mp (hall x (List.mem_cons_self _ _))
    simp only [List.filterMap_cons, hkx] at hnodup hdisj
    simp only [listNodupB, Bool.and_eq_true, decide_eq_true_eq] at hnodup
    obtain ⟨hnotmem, hnodup2⟩ := hnodup
    obtain ⟨rec, hstep⟩ := connStep_of_key acc x kx hkx
    have hnew : dlen (dset acc kx rec) = dlen acc + 1 :=
      dlen_dset_new _ _ _ (hdisj kx (List.mem_cons_self _ _))
    have hdisj2 : ∀ k ∈ List.filterMap connKey rest, dget (dset acc kx rec) k = none := by
      intro k hk
      have hne : k ≠ kx := fun he => hnotmem (he ▸ hk)
      rw [dget_dset_ne _ _ _ _ hne]
      exact hdisj k (List.mem_cons_of_mem _ hk)
    have hih := ih (dset acc kx rec) (fun y hy => hall y (List.mem_cons_of_mem _ hy))
      hnodup2 hdisj2
    rw [List.foldl_cons, hstep, hih, hnew, List.length_cons]
    omega

/-- C8 counterexample: an array of two objects that report the same local
    port parses to a single record (the TCP:8080 identity collapses them),
    so one-record-per-object is false. -/
theorem C8_counterexample :
    (∀ x ∈ [JVal.obj [(strOf "LocalPort", JVal.num 8080)],
            JVal.obj [(strOf "LocalPort", JVal.num 8080)]], ∃ kvs, x = JVal.obj kvs) ∧
    dlen (PortListener.tcpListenersOf
      (.arr [JVal.obj [(strOf "LocalPort", JVal.num 8080)],
             JVal.obj [(strOf "LocalPort", JVal.num 8080)]])) = 1 ∧
    ¬ jsonShapeClaim := by
  refine ⟨?_, by decide, ?_⟩
  · intro x hx
    rcases List.mem_cons.mp hx with h | hx2
    · exact ⟨_, h⟩
    · rcases List.mem_cons.mp hx2 with h | hx3
      · exact ⟨_, h⟩
      · cases hx3
  · intro hclaim
    have h2 := hclaim.2 [JVal.obj [(strOf "LocalPort", JVal.num 8080)],
      JVal.obj [(strOf "LocalPort", JVal.num 8080)]] ?_
    · exact absurd h2 (by decide)
    · intro x hx
      rcases List.mem_cons.mp hx with h | hx2
      · exact ⟨_, h⟩
      · rcases List.mem_cons.mp hx2 with h | hx3
        · exact ⟨_, h⟩
        · cases hx3

/-- C8 corrected: a bare JSON object with a truthy LocalPort parses to
    exactly one record; an array of objects parses to one record per
    object with a truthy LocalPort, merged under the TCP:port identity, so
    the count equals the array length exactly when every element carries a
    truthy port and the derived identities are pairwise distinct. -/
theorem C8_amended :
    (∀ kvs : List (Str × JVal),
      jTruthy (jget kvs (strOf "LocalPort") .null) = true →
      dlen (PortListener.tcpListenersOf (.obj kvs)) = 1) ∧
    (∀ xs : List JVal,
      (∀ x ∈ xs, (connKey x).isSome = true) →
      listNodupB (xs.filterMap connKey) = true →
      dlen (PortListener.tcpListenersOf (.arr xs)) = xs.length) := by
  constructor
  · intro kvs h
    simp only [PortListener.tcpListenersOf, PortListener.connStep]
    rw [if_pos h]
    rfl
  · intro xs hall hnodup
    have h := connFold_len xs [] hall hnodup (fun k _ => rfl)
    simpa [dlen] using h

/-- Witness for C8 on a bare object and a two-object array with distinct
    ports. -/
theorem C8_witness :
    jTruthy (jget [(strOf "LocalPort", JVal.num 8080)] (strOf "LocalPort") .null) = true ∧
    dlen (PortListener.tcpListenersOf (.obj [(strOf "LocalPort", JVal.num 8080)])) = 1 ∧
    dlen (PortListener.tcpListenersOf
      (.arr [JVal.obj [(strOf "LocalPort", JVal.num 8080)],
             JVal.obj [(strOf "LocalPort", JVal.num 9090)]])) = 2 :=
  ⟨by decide,
    C8_amended.1 [(strOf "LocalPort", JVal.num 8080)] (by decide),
    C8_amended.2 [JVal.obj [(strOf "LocalPort", JVal.num 8080)],
      JVal.obj [(strOf "LocalPort", JVal.num 9090)]] (by decide) (by decide)⟩

/-- C7 counterexample: a real netstat line carries the lowercase protocol
    token tcp, so the record lands under tcp:8080 and nothing is stored
    under TCP:8080, refuting the claim as stated. -/
theorem C7_counterexample :
    containsSub (strOf "tcp 0 0 0.0.0.0:8080 0.0.0.0:* LISTEN 123/nginx")
      (strOf "0.0.0.0:8080") = true ∧
    containsSub (strOf "tcp 0 0 0.0.0.0:8080 0.0.0.0:* LISTEN 123/nginx")
      (strOf "LISTEN") = true ∧
    dget (PortListener.parseNetstatLinux
        (strOf "tcp 0 0 0.0.0.0:8080 0.0.0.0:* LISTEN 123/nginx"))
      (strOf "TCP:8080") = none ∧
    (∃ r, dget (PortListener.parseNetstatLinux
        (strOf "tcp 0 0 0.0.0.0:8080 0.0.0.0:* LISTEN 123/nginx"))
      (strOf "tcp:8080") = some r) ∧
    ¬ listenRecordClaim := by
  refine ⟨by decide, by decide, rfl, ⟨_, rfl⟩, ?_⟩
  intro h
  obtain ⟨r, hr, hrest⟩ := h (strOf "tcp 0 0 0.0.0.0:8080 0.0.0.0:* LISTEN 123/nginx")
    (by decide) (by decide)
  rw [show dget (PortListener.parseNetstatLinux
      (strOf "tcp 0 0 0.0.0.0:8080 0.0.0.0:* LISTEN 123/nginx"))
      (strOf "TCP:8080") = none from rfl] at hr
  exact Option.noConfusion hr

/-- C7 corrected: the record is stored under the verbatim protocol token
    of the line followed by the decimal port, with the numeric port, the
    address from the rsplit and the hardcoded LISTENING state; on the
    Windows netstat parser, whose lines carry the uppercase TCP token, the
    record appears under TCP:8080 exactly as the claim says. -/
theorem C7_amended (line proto x1 x2 x3 pinfo : Str)
    (hsplit : pySplitWs line = [proto, x1, x2, strOf "0.0.0.0:8080", x3, strOf "LISTEN", pinfo])
    (hln : containsSub line (strOf "LISTEN") = true) :
    (∃ r : PortListener.PortRec,
      dget (PortListener.netstatLinuxLine [] line) (proto ++ strOf ":8080") = some r ∧
      r.protocol = proto ∧ r.port = JVal.num 8080 ∧
      r.addr = JVal.str (strOf "0.0.0.0") ∧ r.state = strOf "LISTENING") ∧
    (∃ r2 : PortListener.PortRec,
      dget (PortListener.parseNetstatWin
          (strOf "a\nb\nc\nd\nTCP 0.0.0.0:8080 0.0.0.0:0 LISTENING 1234"))
        (strOf "TCP:8080") = some r2 ∧
      r2.protocol = strOf "TCP" ∧ r2.port = JVal.num 8080 ∧
      r2.addr = JVal.str (strOf "0.0.0.0") ∧ r2.state = strOf "LISTENING") := by
  constructor
  · have hcond : (containsSub line (strOf "LISTEN")
        || containsSub (toLowerStr line) (strOf "udp")) = true := by
      rw [hln]
      rfl
    unfold PortListener.netstatLinuxLine
    rw [if_pos hcond]
    simp only [hsplit, List.length_cons, List.getD, List.get?, Option.getD]
    norm_num
    rw [if_pos (show containsSub (strOf "0.0.0.0:8080") (strOf ":") = true by decide)]
    simp only [show pyRSplitOnce ':' (strOf "0.0.0.0:8080")
        = some (strOf "0.0.0.0", strOf "8080") from rfl,
      show pyInt (strOf "8080") = some (8080 : Int) from rfl,
      show intToStr (8080 : Int) = strOf "8080" from rfl]
    exact ⟨_, dget_dset_self _ _ _, rfl, rfl, rfl, rfl⟩
  · exact ⟨_, rfl, rfl, rfl, rfl, rfl⟩

/-- Witness for C7 at the concrete lowercase netstat line: the record
    appears under tcp:8080 with the claimed field values. -/
theorem C7_witness :
    pySplitWs (strOf "tcp 0 0 0.0.0.0:8080 0.0.0.0:* LISTEN 123/nginx")
      = [strOf "tcp", strOf "0", strOf "0", strOf "0.0.0.0:8080",
         strOf "0.0.0.0:*", strOf "LISTEN", strOf "123/nginx"] ∧
    (∃ r : PortListener.PortRec,
      dget (PortListener.netstatLinuxLine []
          (strOf "tcp 0 0 0.0.0.0:8080 0.0.0.0:* LISTEN 123/nginx"))
        (strOf "tcp" ++ strOf ":8080") = some r ∧
      r.protocol = strOf "tcp" ∧ r.port = JVal.num 8080 ∧
      r.addr = JVal.str (strOf "0.0.0.0") ∧ r.state = strOf "LISTENING") :=
  ⟨by decide,
    (C7_amended (strOf "tcp 0 0 0.0.0.0:8080 0.0.0.0:* LISTEN 123/nginx")
      (strOf "tcp") (strOf "0") (strOf "0") (strOf "0.0.0.0:*") (strOf "123/nginx")
      (by decide) (by decide)).1⟩

theorem pmLoop_stop (envpm : SwLinux.PM → ProbeOutcome) (pre rest : List SwLinux.PM)
    (p : SwLinux.PM) (out : Str) (sw : PyDict Str) (tr : List Str)
    (hpre : ∀ q ∈ pre, isSuccessB (envpm q) = false)
    (hp : envpm p = .ran 0 out) :
    SwLinux.pmLoop envpm (pre ++ p :: rest) sw tr =
      (dupdate sw (SwLinux.parsePM p out),
       tr ++ pmAttemptTrail envpm pre ++ [SwLinux.msgTrying p]) := by
  induction pre generalizing tr with
  | nil =>
    simp only [List.nil_append, SwLinux.pmLoop, hp, subprocessRun]
    simp [pmAttemptTrail]
  | cons q qs ih =>
    have hq := hpre q (List.mem_cons_self _ _)
    simp only [List.cons_append, SwLinux.pmLoop]
    cases hro : subprocessRun (envpm q) with
    | error e =>
      dsimp only
      simp only [List.append_eq]
      rw [ih _ (fun q2 h2 => hpre q2 (List.mem_cons_of_mem _ h2))]
      simp [pmAttemptTrail, hro, List.append_assoc]
    | ok rcout =>
      obtain ⟨rc, out2⟩ := rcout
      dsimp only
      simp only [List.append_eq]
      have hrc : ¬ (rc = 0) := by
        intro h0
        subst h0
        cases henv : envpm q
        case ran rc2 out3 =>
          rw [henv] at hro hq
          simp only [subprocessRun, Except.ok.injEq, Prod.mk.injEq] at hro
          simp only [isSuccessB, decide_eq_false_iff_not] at hq
          exact hq hro.1
        all_goals (rw [henv] at hro; simp [subprocessRun] at hro)
      rw [if_neg hrc]
      rw [ih _ (fun q2 h2 => hpre q2 (List.mem_cons_of_mem _ h2))]
      simp [pmAttemptTrail, hro, List.append_assoc]

theorem snapLine_step :
    stepDsets SwLinux.snapLine (fun k => strStartsWith k (strOf "Snap: ")) := by
  intro d line
  unfold SwLinux.snapLine
  dsimp only
  split
  · split
    · right
      exact ⟨_, _, strStartsWith_append _ _, rfl⟩
    · left; rfl
  · left; rfl

theorem flatpakLine_step :
    stepDsets SwLinux.flatpakLine (fun k => strStartsWith k (strOf "Flatpak: ")) := by
  intro d line
  unfold SwLinux.flatpakLine
  dsimp only
  split
  · split
    · split
      · right
        exact ⟨_, _, strStartsWith_append _ _, rfl⟩
      · left; rfl
    · left; rfl
  · left; rfl

theorem pipLine_step :
    stepDsets pipLine (fun k => strStartsWith k (strOf "Python: ")) := by
  intro d line
  unfold pipLine
  dsimp only
  split
  · split
    · right
      exact ⟨_, _, strStartsWith_append _ _, rfl⟩
    · left; rfl
  · left; rfl

theorem snapDict_prop (o : ProbeOutcome) :
    nodupKeysB (dictOf (SwLinux.get_snap_packages o)) = true ∧
    ∀ x ∈ dictOf (SwLinux.get_snap_packages o),
      strStartsWith x.1 (strOf "Snap: ") = true := by
  unfold dictOf SwLinux.get_snap_packages
  rcases subprocessRun o with e | ⟨rc, out⟩
  · exact ⟨rfl, by intro x hx; cases hx⟩
  · dsimp only
    split
    · exact foldl_nodup_prefix _ _ snapLine_step _ [] rfl (by intro x hx; cases hx)
    · exact ⟨rfl, by intro x hx; cases hx⟩

theorem flatpakDict_prop (o : ProbeOutcome) :
    nodupKeysB (dictOf (SwLinux.get_flatpak_packages o)) = true ∧
    ∀ x ∈ dictOf (SwLinux.get_flatpak_packages o),
      strStartsWith x.1 (strOf "Flatpak: ") = true := by
  unfold dictOf SwLinux.get_flatpak_packages
  rcases subprocessRun o with e | ⟨rc, out⟩
  · exact ⟨rfl, by intro x hx; cases hx⟩
  · dsimp only
    split
    · exact foldl_nodup_prefix _ _ flatpakLine_step _ [] rfl (by intro x hx; cases hx)
    · exact ⟨rfl, by intro x hx; cases hx⟩

theorem pipDict_prop (o : ProbeOutcome) :
    nodupKeysB (dictOf (get_python_packages o)) = true ∧
    ∀ x ∈ dictOf (get_python_packages o),
      strStartsWith x.1 (strOf "Python: ") = true := by
  unfold dictOf get_python_packages
  rcases subprocessRun o with e | ⟨rc, out⟩
  · exact ⟨rfl, by intro x hx; cases hx⟩
  · dsimp only
    split
    · exact foldl_nodup_prefix _ _ pipLine_step _ [] rfl (by intro x hx; cases hx)
    · exact ⟨rfl, by intro x hx; cases hx⟩

theorem msgTrying_ne_fixed (q : SwLinux.PM) (x : Str) (hx : x.head? ≠ some 'T') :
    SwLinux.msgTrying q ≠ x := by
  intro he
  apply hx
  rw [← he]
  cases q <;> rfl

theorem msgTrying_inj (a b : SwLinux.PM) (h : SwLinux.msgTrying a = SwLinux.msgTrying b) :
    a = b := by
  cases a <;> cases b <;> first | rfl | exact absurd h (by decide)

theorem msgFailed_head (q : SwLinux.PM) (e : PyExn) :
    (SwLinux.msgFailed q e).head? ≠ some 'T' := by
  have h : (SwLinux.msgFailed q e).head? = some 'd' ∨ (SwLinux.msgFailed q e).head? = some 'r'
      ∨ (SwLinux.msgFailed q e).head? = some 'p' ∨ (SwLinux.msgFailed q e).head? = some 'a'
      ∨ (SwLinux.msgFailed q e).head? = some 'z' := by
    cases q
    · exact Or.inl rfl
    · exact Or.inr (Or.inl rfl)
    · exact Or.inr (Or.inr (Or.inl rfl))
    · exact Or.inr (Or.inr (Or.inr (Or.inl rfl)))
    · exact Or.inr (Or.inr (Or.inr (Or.inr rfl)))
    · exact Or.inr (Or.inr (Or.inl rfl))
  intro hT
  rcases h with h | h | h | h | h <;>
    (rw [hT] at h; exact absurd (Option.some.inj h) (by decide))

theorem mem_pmAttemptTrail (envpm : SwLinux.PM → ProbeOutcome) (l : List SwLinux.PM)
    (q : SwLinux.PM) (h : SwLinux.msgTrying q ∈ pmAttemptTrail envpm l) : q ∈ l := by
  induction l with
  | nil => cases h
  | cons q2 qs ih =>
    simp only [pmAttemptTrail, List.mem_append] at h
    rcases h with h | h
    · cases hro : subprocessRun (envpm q2) with
      | error e =>
        rw [hro] at h
        rcases List.mem_cons.mp h with h2 | h2
        · rw [msgTrying_inj q q2 h2]
          exact List.mem_cons_self _ _
        · rcases List.mem_cons.mp h2 with h3 | h3
          · exact absurd h3 (msgTrying_ne_fixed q _ (msgFailed_head q2 e))
          · cases h3
      | ok rcout =>
        rw [hro] at h
        rcases List.mem_cons.mp h with h2 | h2
        · rw [msgTrying_inj q q2 h2]
          exact List.mem_cons_self _ _
        · cases h2
    · exact List.mem_cons_of_mem _ (ih h)

theorem snap_trail (o : ProbeOutcome) :
    trailOf (SwLinux.get_snap_packages o) = [SwLinux.snapBanner] := by
  unfold trailOf SwLinux.get_snap_packages
  rcases subprocessRun o with e | ⟨rc, out⟩
  · rfl
  · dsimp only
    split <;> rfl

theorem flatpak_trail (o : ProbeOutcome) :
    trailOf (SwLinux.get_flatpak_packages o) = [SwLinux.flatpakBanner] := by
  unfold trailOf SwLinux.get_flatpak_packages
  rcases subprocessRun o with e | ⟨rc, out⟩
  · rfl
  · dsimp only
    split <;> rfl

theorem pip_banner_mem (o : ProbeOutcome) :
    pipBanner ∈ trailOf (get_python_packages o) := by
  unfold trailOf get_python_packages
  rcases subprocessRun o with e | ⟨rc, out⟩
  · simp
  · dsimp only
    split <;> simp

theorem pip_trail_heads (o : ProbeOutcome) (msg : Str)
    (h : msg ∈ trailOf (get_python_packages o)) :
    msg.head? = some 'S' ∨ msg.head? = some 'P' := by
  unfold trailOf get_python_packages at h
  rcases hro : subprocessRun o with e | ⟨rc, out⟩ <;> rw [hro] at h <;> try dsimp only at h
  · rcases List.mem_cons.mp h with h2 | h2
    · left
      rw [h2]
      rfl
    · rcases List.mem_cons.mp h2 with h3 | h3
      · right
        rw [h3]
        rfl
      · cases h3
  · split at h <;> try dsimp only at h
    all_goals
      rcases List.mem_cons.mp h with h2 | h2
      · left
        rw [h2]
        rfl
      · cases h2

theorem msgTrying_head (q : SwLinux.PM) : (SwLinux.msgTrying q).head? = some 'T' := by
  cases q <;> rfl

/-- C5: the additive probes (snap, flatpak, pip) are attempted and their
    records merged into the returned mapping for every environment, while
    the system package managers form a stop-at-first-success chain: when
    every package manager before p fails and p exits 0, the loop output is
    exactly the parse of p and no later package manager is tried. -/
theorem C5_additive_and_first_success (env1 env2 : SwLinux.Env)
    (pre rest : List SwLinux.PM) (p : SwLinux.PM) (out : Str)
    (k1 v1 k2 v2 k3 v3 : Str)
    (hsplit : SwLinux.pmList = pre ++ p :: rest)
    (hpre : ∀ q ∈ pre, isSuccessB (env2.pm q) = false)
    (hp : env2.pm p = .ran 0 out)
    (h1 : dget (dictOf (SwLinux.get_snap_packages env1.snap)) k1 = some v1)
    (h2 : dget (dictOf (SwLinux.get_flatpak_packages env1.flatpak)) k2 = some v2)
    (h3 : dget (dictOf (get_python_packages env1.pip)) k3 = some v3) :
    (SwLinux.snapBanner ∈ trailOf (SwLinux.get_installed_software env1) ∧
     SwLinux.flatpakBanner ∈ trailOf (SwLinux.get_installed_software env1) ∧
     pipBanner ∈ trailOf (SwLinux.get_installed_software env1)) ∧
    (dget (dictOf (SwLinux.get_installed_software env1)) k1 = some v1 ∧
     dget (dictOf (SwLinux.get_installed_software env1)) k2 = some v2 ∧
     dget (dictOf (SwLinux.get_installed_software env1)) k3 = some v3) ∧
    (∀ q ∈ rest, SwLinux.msgTrying q ∉ trailOf (SwLinux.get_installed_software env2)) ∧
    dictOf (SwLinux.get_linux_software env2.pm) = dupdate [] (SwLinux.parsePM p out) := by
  have htr : ∀ env : SwLinux.Env, trailOf (SwLinux.get_installed_software env) =
      strOf "Detecting software on Linux..." ::
        ((SwLinux.pmLoop env.pm SwLinux.pmList [] []).2
          ++ trailOf (SwLinux.get_snap_packages env.snap)
          ++ trailOf (SwLinux.get_flatpak_packages env.flatpak)
          ++ trailOf (get_python_packages env.pip)) := fun env => rfl
  have hdict : dictOf (SwLinux.get_installed_software env1) =
      dupdate (dupdate (dupdate (SwLinux.pmLoop env1.pm SwLinux.pmList [] []).1
        (dictOf (SwLinux.get_snap_packages env1.snap)))
        (dictOf (SwLinux.get_flatpak_packages env1.flatpak)))
        (dictOf (get_python_packages env1.pip)) := rfl
  obtain ⟨hsnN, hsnP⟩ := snapDict_prop env1.snap
  obtain ⟨hflN, hflP⟩ := flatpakDict_prop env1.flatpak
  obtain ⟨hpiN, hpiP⟩ := pipDict_prop env1.pip
  have hk1 : strStartsWith k1 (strOf "Snap: ") = true := hsnP _ (dget_mem _ _ _ h1)
  have hk2 : strStartsWith k2 (strOf "Flatpak: ") = true := hflP _ (dget_mem _ _ _ h2)
  refine ⟨⟨?_, ?_, ?_⟩, ⟨?_, ?_, ?_⟩, ?_, ?_⟩
  · rw [htr env1]
    refine List.mem_cons_of_mem _ (List.mem_append_left _ (List.mem_append_left _
      (List.mem_append_right _ ?_)))
    rw [snap_trail]
    exact List.mem_cons_self _ _
  · rw [htr env1]
    refine List.mem_cons_of_mem _ (List.mem_append_left _ (List.mem_append_right _ ?_))
    rw [flatpak_trail]
    exact List.mem_cons_self _ _
  · rw [htr env1]
    exact List.mem_cons_of_mem _ (List.mem_append_right _ (pip_banner_mem _))
  · rw [hdict]
    have hpip1 : dget (dictOf (get_python_packages env1.pip)) k1 = none :=
      dget_none_of_all _ (fun k => strStartsWith k (strOf "Python: ")) hpiP _
        (startsWith_false_of_head_ne k1 'S' 'P' _ _ (by decide) hk1)
    have hfl1 : dget (dictOf (SwLinux.get_flatpak_packages env1.flatpak)) k1 = none :=
      dget_none_of_all _ (fun k => strStartsWith k (strOf "Flatpak: ")) hflP _
        (startsWith_false_of_head_ne k1 'S' 'F' _ _ (by decide) hk1)
    rw [dget_dupdate_none _ _ _ hpip1, dget_dupdate_none _ _ _ hfl1]
    exact dget_dupdate_some _ _ _ _ hsnN h1
  · rw [hdict]
    have hpip2 : dget (dictOf (get_python_packages env1.pip)) k2 = none :=
      dget_none_of_all _ (fun k => strStartsWith k (strOf "Python: ")) hpiP _
        (startsWith_false_of_head_ne k2 'F' 'P' _ _ (by decide) hk2)
    rw [dget_dupdate_none _ _ _ hpip2]
    exact dget_dupdate_some _ _ _ _ hflN h2
  · rw [hdict]
    exact dget_dupdate_some _ _ _ _ hpiN h3
  · intro q hq
    have hnodup : (pre ++ p :: rest).Nodup := by
      rw [← hsplit]
      decide
    rw [List.nodup_append] at hnodup
    obtain ⟨hnpre, hnrest, hdisj⟩ := hnodup
    rw [List.nodup_cons] at hnrest
    have hqp : q ≠ p := fun he => hnrest.1 (he ▸ hq)
    have hqpre : q ∉ pre := fun hin => hdisj hin (List.mem_cons_of_mem _ hq)
    rw [htr env2]
    intro hmem
    rcases List.mem_cons.mp hmem with heq | hmem2
    · exact msgTrying_ne_fixed q _ (by decide) heq
    · rw [hsplit, pmLoop_stop env2.pm pre rest p out [] [] hpre hp] at hmem2
      simp only [List.nil_append] at hmem2
      rw [snap_trail, flatpak_trail] at hmem2
      rcases List.mem_append.mp hmem2 with hA | hpip
      · rcases List.mem_append.mp hA with hB | hflat
        · rcases List.mem_append.mp hB with hC | hsnap
          · rcases List.mem_append.mp hC with hattempt | hlast
            · exact hqpre (mem_pmAttemptTrail _ _ _ hattempt)
            · rcases List.mem_cons.mp hlast with heq2 | h0
              · exact hqp (msgTrying_inj _ _ heq2)
              · cases h0
          · rcases List.mem_cons.mp hsnap with heq2 | h0
            · exact msgTrying_ne_fixed q _ (by decide) heq2
            · cases h0
        · rcases List.mem_cons.mp hflat with heq2 | h0
          · exact msgTrying_ne_fixed q _ (by decide) heq2
          · cases h0
      · rcases pip_trail_heads env2.pip _ hpip with hh | hh <;>
          (rw [msgTrying_head q] at hh; exact absurd (Option.some.inj hh) (by decide))
  · show (SwLinux.pmLoop env2.pm SwLinux.pmList [] []).1 = _
    rw [hsplit, pmLoop_stop env2.pm pre rest p out [] [] hpre hp]

theorem C5_witness :
    SwLinux.pmList =
      [SwLinux.PM.dpkg] ++ SwLinux.PM.rpm ::
        [SwLinux.PM.pacman, SwLinux.PM.apk, SwLinux.PM.zypper, SwLinux.PM.portage] ∧
    isSuccessB (envChain.pm .dpkg) = false ∧
    envChain.pm .rpm = .ran 0 (strOf "") ∧
    dget (dictOf (SwLinux.get_snap_packages envAdditive.snap)) (strOf "Snap: core") =
      some (strOf "16") ∧
    dget (dictOf (SwLinux.get_installed_software envAdditive)) (strOf "Snap: core") =
      some (strOf "16") ∧
    dget (dictOf (SwLinux.get_installed_software envAdditive)) (strOf "Python: requests") =
      some (strOf "2.0") ∧
    SwLinux.msgTrying .pacman ∉ trailOf (SwLinux.get_installed_software envChain) := by
  have h := C5_additive_and_first_success envAdditive envChain
    [.dpkg] [.pacman, .apk, .zypper, .portage] .rpm (strOf "")
    (strOf "Snap: core") (strOf "16") (strOf "Flatpak: fp") (strOf "1.0")
    (strOf "Python: requests") (strOf "2.0")
    rfl (by decide) rfl (by decide) (by decide) (by decide)
  exact ⟨rfl, by decide, rfl, by decide, h.2.1.1, h.2.1.2.2, h.2.2.1 _ (by decide)⟩
